import Mathlib

/-!
Shallow embedding of the sleuthers-api game server (src/index.ts) together
with the SQL schema (db-init.sql).  The persisted tables of one game are
modelled as a `GameState` record of lists; every SQL statement of the source
becomes a pure list operation.  The source runs each query in its own
implicit transaction (there is no BEGIN/COMMIT anywhere), so handlers are
modelled as state-threading functions that return the state accumulated so
far even when they fail: an error does not roll anything back.
Randomness (Math.random in shuffle, rollDice and the ELIMINATE pick) is
modelled by explicit entropy parameters.
-/

/-- Action types, from the action_type SQL enum and the ActionType union. -/
inductive ActionType
  | ROLL
  | MOVE
  | SIGHT
  | ELIMINATE
  | PICK_TOKEN
  | SPECIFIC_TOKEN
deriving DecidableEq, Repr, Inhabited

/-- Game stages, from the game_stage SQL enum. -/
inductive GameStage
  | PLAYING
  | GUESSING
  | FINISHED
deriving DecidableEq, Repr, Inhabited

/-- Row of game_user: a player of the game. -/
structure GameUser where
  app_user : String
  character : String
  game_order : Nat
deriving DecidableEq, Repr, Inhabited

/-- Row of game_token: remaining stock of one token type. -/
structure GameToken where
  token : String
  count : Int
deriving DecidableEq, Repr, Inhabited

/-- Row of game_token_location. -/
structure GameTokenLocation where
  token : String
  location : Nat
deriving DecidableEq, Repr, Inhabited

/-- Row of game_user_token: tokens held by a player. -/
structure GameUserToken where
  app_user : String
  token : String
  count : Int
deriving DecidableEq, Repr, Inhabited

/-- Row of game_character. -/
structure GameCharacter where
  character : String
  location : Nat
  eliminated : Bool
deriving DecidableEq, Repr, Inhabited

/-- Row of game_card. -/
structure GameCard where
  id : String
  deck_order : Option Nat := none
  action1 : ActionType
  character1 : Option String := none
  token1 : Option String := none
  action2 : ActionType
  character2 : Option String := none
  token2 : Option String := none
deriving DecidableEq, Repr, Inhabited

/-- Row of game_user_card: a card in a player's hand. -/
structure GameUserCard where
  card : String
  app_user : String
deriving DecidableEq, Repr, Inhabited

/-- Row of game_user_guess. -/
structure GameUserGuess where
  app_user : String
  character : String
  target_user : String
  guess : Bool
deriving DecidableEq, Repr, Inhabited

/-- Row of game_log (timestamps are irrelevant to the logic and omitted). -/
structure GameLogEntry where
  id : Nat
  app_user : String
  action : ActionType
  die1 : Option String := none
  die2 : Option String := none
  card : Option String := none
  character : Option String := none
  token : Option String := none
  move_from : Option Nat := none
  sight_result : Option Bool := none
  sight_user : Option String := none
deriving DecidableEq, Repr, Inhabited

/-- All persisted state of one game.  `created` models whether the game row
exists; `users` is the game_user table in ascending game_order (the result
of the ORDER BY game_order query the handlers run); `log` is the game_log
table in ascending id. -/
structure GameState where
  created : Bool
  owner : String
  gname : String
  stage : GameStage
  users : List GameUser
  tokens : List GameToken
  tokenLocations : List GameTokenLocation
  userTokens : List GameUserToken
  characters : List GameCharacter
  cards : List GameCard
  userCards : List GameUserCard
  guesses : List GameUserGuess
  log : List GameLogEntry
deriving DecidableEq, Repr, Inhabited

/-- The ErrorResponse class of the source: an HTTP status and a message. -/
structure ErrorResponse where
  status : Nat
  message : String
deriving DecidableEq, Repr

/-- An error raised by a handler: either an ErrorResponse or one of the
bare string throws of the source (which surface as a generic 500). -/
inductive Err
  | response (e : ErrorResponse)
  | fatal (message : String)
deriving DecidableEq, Repr

/-- Result value a successful POST /game/:gameId returns: nothing for
MOVE/PICK_TOKEN/SPECIFIC_TOKEN, the eliminated character for ELIMINATE,
the visibility Boolean for SIGHT. -/
inductive ActionResult
  | unit
  | char (characterId : String)
  | see (canSee : Bool)
deriving DecidableEq, Repr

/-- JavaScript truthiness of an optional string: undefined and the empty
string are falsy. -/
def strTruthy : Option String → Bool
  | none => false
  | some s => !s.isEmpty

/-- The in-place Fisher-like shuffle of the source: for each index i it
swaps positions i and j where j = floor(random * n).  The random draws are
supplied as `seed`, reduced mod n exactly as floor(random * n) lies in
[0, n). -/
def listSwap {α : Type} (l : List α) (i j : Nat) : List α :=
  match l.get? i, l.get? j with
  | some x, some y => (l.set i y).set j x
  | _, _ => l

/-- Shuffle, translated from the source's shuffle function. -/
def shuffle {α : Type} (seed : Nat → Nat) (l : List α) : List α :=
  (List.range l.length).foldl
    (fun acc i =>
      let j := seed i % l.length
      if i ≠ j then listSwap acc i j else acc)
    l

/-- Entropy consumed by one rollDice call: the shuffle randoms plus the two
1/6-probability no-result draws. -/
structure DiceEntropy where
  seed : Nat → Nat
  no1 : Bool
  no2 : Bool

/-- Translation of rollDice: shuffles the character list in place and takes
the first two entries, each independently replaced by no-result.  Returns
the dice and the shuffled list (the source mutates its argument). -/
def rollDice (e : DiceEntropy) (characters : List String) :
    (Option String × Option String) × List String :=
  let s := shuffle e.seed characters
  ((if e.no1 then none else s.get? 0, if e.no2 then none else s.get? 1), s)

/-- Translation of coords: location & 3 and location >>> 2 on a 4-wide grid. -/
def coords (location : Nat) : Nat × Nat :=
  (location % 4, location / 4)

/-- Translation of dist: Manhattan distance between two cells. -/
def gridDist (l1 l2 : Nat) : Nat :=
  let c1 := coords l1
  let c2 := coords l2
  ((c1.1 : Int) - c2.1).natAbs + ((c1.2 : Int) - c2.2).natAbs

/-- Translation of moveMatches: a die matches a moved character when the die
had no result or names that character. -/
def moveMatches (move : String) (die : Option String) : Bool :=
  match die with
  | none => true
  | some d => d == move

/-- Translation of movesMatch: the two moves pair against the two dice in
one of the two orders. -/
def movesMatch (move1 move2 : String) (die1 die2 : Option String) : Bool :=
  (moveMatches move1 die1 && moveMatches move2 die2) ||
  (moveMatches move1 die2 && moveMatches move2 die1)

/-- Translation of isFinished: every player must hold exactly one true guess
about every other player. -/
def isFinished (users : List GameUser) (guesses : List GameUserGuess) : Bool :=
  users.all fun user =>
    users.all fun targetUser =>
      targetUser.app_user == user.app_user ||
        ((guesses.filter fun g =>
            g.app_user == user.app_user &&
            g.target_user == targetUser.app_user &&
            g.guess).length == 1)

/-- The game_order sanity loop of the handlers: users[i].game_order must be
exactly i for every index. -/
def usersOrdered (users : List GameUser) : Bool :=
  (List.range users.length).all fun i =>
    match users.get? i with
    | some gu => gu.game_order == i
    | none => true

/-- Translation of the turn-phase derivation: 1 plus the number of
consecutive log entries before the last one made by the same player
(the source loop starts at count = 1 and walks backwards from the entry
before the last). -/
def turnCountOf (log : List GameLogEntry) (lastPlayerId : String) : Nat :=
  1 + ((log.reverse.drop 1).takeWhile fun e => e.app_user == lastPlayerId).length

/-- Translation of getLocation: look a character's location up, 400 when
the character has no row in this game. -/
def getLocation (s : GameState) (characterId : String) : Except Err Nat :=
  match s.characters.find? fun gc => gc.character == characterId with
  | some gc => .ok gc.location
  | none => .error (.response ⟨400, "Character not found"⟩)

/-- Append one log entry (an INSERT INTO game_log). -/
def appendLog (s : GameState) (e : GameLogEntry) : GameState :=
  { s with log := s.log ++ [e] }

/-- The ON CONFLICT upsert both token resolvers run on game_user_token:
insert a count of 1 or increment the existing row. -/
def upsertUserToken (l : List GameUserToken) (u tid : String) : List GameUserToken :=
  if l.any fun ut => ut.app_user == u && ut.token == tid then
    l.map fun ut =>
      if ut.app_user == u && ut.token == tid then { ut with count := ut.count + 1 } else ut
  else l ++ [⟨u, tid, 1⟩]

/-- The shared effect of PICK_TOKEN and SPECIFIC_TOKEN: upsert the player's
holding and decrement the token's stock row. -/
def pickupToken (u tid : String) (s : GameState) : GameState :=
  { s with
    userTokens := upsertUserToken s.userTokens u tid,
    tokens := s.tokens.map fun gt =>
      if gt.token == tid then { gt with count := gt.count - 1 } else gt }

/-- The PICK_TOKEN location query: some board location of the requested
token is occupied by the character of the acting player. -/
def canPickAt (s : GameState) (authUserId tokenId : String) : Bool :=
  s.tokenLocations.any fun tl =>
    tl.token == tokenId &&
      (s.characters.any fun gc =>
        gc.location == tl.location &&
          (s.users.any fun gu =>
            gu.character == gc.character && gu.app_user == authUserId))

/-- The ELIMINATE candidate query: characters of this game that are not
eliminated and not assigned to any player. -/
def elimCandidates (s : GameState) : List String :=
  (s.characters.filter fun gc =>
    !gc.eliminated && !(s.users.any fun gu => gu.character == gc.character)).map
    (fun gc => gc.character)

/-- Translation of getCharacterId inside the ELIMINATE resolver: a random
candidate, or none when no candidate exists. -/
def getCharacterIdElim (s : GameState) (pick : Nat) : Option String :=
  let cs := elimCandidates s
  if cs.isEmpty then none else cs.get? (pick % cs.length)

/-- Entropy consumed by one applyAction call: the ELIMINATE random pick and
the dice entropy of the end-of-turn roll. -/
structure Entropy where
  elimPick : Nat
  dice : DiceEntropy

/-- The POST /game/:gameId request body. -/
structure ActionRequest where
  type : ActionType
  cardId : Option String := none
  characterId : Option String := none
  tokenId : Option String := none
  moveTo : Option Int := none
  sightUserId : Option String := none

/-- The game-wide reset of the eliminated flags (UPDATE game_character SET
eliminated = FALSE). -/
def resetEliminated (s : GameState) : GameState :=
  { s with characters := s.characters.map fun gc => { gc with eliminated := false } }

/-- The ELIMINATE effect after a successful pick: insert the log record and
mark the picked character eliminated. -/
def applyEliminate (authUserId : String) (nextLogId : Nat)
    (cardId eliminatedCharacterId : String) (s0 : GameState) : GameState :=
  let s1 := appendLog s0
    { id := nextLogId, app_user := authUserId, action := .ELIMINATE,
      card := some cardId, character := some eliminatedCharacterId }
  { s1 with characters := s1.characters.map fun gc =>
      if gc.character == eliminatedCharacterId then { gc with eliminated := true } else gc }

/-- The action resolver switch of the phase 3/4 branch.  Returns the result
value together with the state after the resolver's own queries; on an error
the state holds the queries committed before the throw (every query of the
source commits on its own). -/
def resolveAction (authUserId : String) (req : ActionRequest) (ent : Entropy)
    (s : GameState) (nextLogId : Nat) (cardId : String)
    (cardCharacterId cardTokenId : Option String)
    (characterLocation : Option Nat) : Except Err ActionResult × GameState :=
  match req.type with
  | .ELIMINATE =>
    let picked : Option String × GameState :=
      match getCharacterIdElim s ent.elimPick with
      | some c => (some c, s)
      | none =>
        let sReset : GameState := resetEliminated s
        (getCharacterIdElim sReset ent.elimPick, sReset)
    match picked with
    | (none, s0) =>
      -- unreachable once an uncontrolled character exists; in the source the
      -- log INSERT would violate the chk_character constraint with a NULL
      (.error (.fatal "Eliminate pick failed"), s0)
    | (some eliminatedCharacterId, s0) =>
      (.ok (.char eliminatedCharacterId),
        applyEliminate authUserId nextLogId cardId eliminatedCharacterId s0)
  | .MOVE =>
    match req.moveTo with
    | none => (.error (.response ⟨400, "moveTo is required for MOVE action"⟩), s)
    | some moveTo =>
      if !(strTruthy req.characterId) then
        (.error (.response ⟨400, "characterId is required for MOVE action"⟩), s)
      else
        let characterId := req.characterId.getD ""
        if characterLocation == some moveTo.toNat then
          (.error (.response ⟨400, "Must move to a different space"⟩), s)
        else
          let s1 := appendLog s
            { id := nextLogId, app_user := authUserId, action := .MOVE,
              card := some cardId, character := some characterId,
              move_from := characterLocation }
          let s2 : GameState :=
            { s1 with characters := s1.characters.map fun gc =>
                if gc.character == characterId then { gc with location := moveTo.toNat } else gc }
          (.ok .unit, s2)
  | .PICK_TOKEN =>
    if !(strTruthy req.tokenId) then
      (.error (.response ⟨400, "tokenId is required for PICK_TOKEN action"⟩), s)
    else
      let tokenId := req.tokenId.getD ""
      if !(canPickAt s authUserId tokenId) then
        (.error (.response ⟨400, "You cannot pick up that token"⟩), s)
      else
        let s1 := appendLog s
          { id := nextLogId, app_user := authUserId, action := .PICK_TOKEN,
            card := some cardId, token := some tokenId }
        (.ok .unit, pickupToken authUserId tokenId s1)
  | .SIGHT =>
    if !(strTruthy req.sightUserId) then
      (.error (.response ⟨400, "sightUserId is required for SIGHT action"⟩), s)
    else if !(strTruthy cardCharacterId) then
      (.error (.fatal "Expected character to be set"), s)
    else
      let sightUserId := req.sightUserId.getD ""
      match s.users.find? fun gu => gu.app_user == sightUserId with
      | none => (.error (.response ⟨404, "User not found"⟩), s)
      | some sightUser =>
        match getLocation s (cardCharacterId.getD "") with
        | .error e => (.error e, s)
        | .ok loc1 =>
          match getLocation s sightUser.character with
          | .error e => (.error e, s)
          | .ok loc2 =>
            let c1 := coords loc1
            let c2 := coords loc2
            let canSee := c1.1 == c2.1 || c1.2 == c2.2
            let s1 := appendLog s
              { id := nextLogId, app_user := authUserId, action := .SIGHT,
                card := some cardId, character := cardCharacterId,
                sight_user := some sightUserId, sight_result := some canSee }
            (.ok (.see canSee), s1)
  | .SPECIFIC_TOKEN =>
    if !(strTruthy cardTokenId) then
      (.error (.fatal "Expected token to be set"), s)
    else
      let tokenId := cardTokenId.getD ""
      let s1 := appendLog s
        { id := nextLogId, app_user := authUserId, action := .SPECIFIC_TOKEN,
          card := some cardId, token := some tokenId }
      (.ok .unit, pickupToken authUserId tokenId s1)
  | .ROLL => (.error (.response ⟨400, "Unexpected action type"⟩), s)

/-- The card of the deck with the least deck_order, if any card is still in
the deck (ORDER BY deck_order LIMIT 1). -/
def minDeckCard (cards : List GameCard) : Option GameCard :=
  (cards.filter fun c => c.deck_order.isSome).foldl
    (fun acc c =>
      match acc with
      | none => some c
      | some b => if c.deck_order.getD 0 < b.deck_order.getD 0 then some c else acc)
    none

/-- Turn advancement after a completed phase 4: roll fresh dice, append the
next player's ROLL entry, discard the used card and draw the next card from
the deck.  When the deck is empty the source throws after the ROLL insert
and the discard already committed. -/
def advanceTurn (authUserId : String) (ent : Entropy) (cardId : String)
    (curPlayerOrder nextLogId : Nat) (s : GameState) : Option Err × GameState :=
  let characters := s.characters.map fun gc => gc.character
  let dice := (rollDice ent.dice characters).1
  let nextUser? :=
    match s.users.find? fun gu => gu.game_order == curPlayerOrder + 1 with
    | some u => some u
    | none => s.users.find? fun gu => gu.game_order == 0
  match nextUser? with
  | none => (some (.fatal "Bad user state"), s)
  | some nextUser =>
    let s1 := appendLog s
      { id := nextLogId + 1, app_user := nextUser.app_user, action := .ROLL,
        die1 := dice.1, die2 := dice.2 }
    let s2 : GameState :=
      { s1 with userCards := s1.userCards.filter fun uc =>
          !(uc.card == cardId && uc.app_user == authUserId) }
    match minDeckCard s2.cards with
    | some nextCard =>
      let s3 : GameState :=
        { s2 with cards := s2.cards.map fun c =>
            if c.id == nextCard.id then { c with deck_order := none } else c }
      (none, { s3 with userCards := s3.userCards ++ [⟨nextCard.id, authUserId⟩] })
    | none => (some (.fatal "Ran out of cards!"), s2)

/-- The epilogue of the phase 3/4 branch: the token-scarcity stage check,
else turn advancement when the phase was 4. -/
def afterAction (authUserId : String) (ent : Entropy) (cardId : String)
    (turnCount curPlayerOrder nextLogId : Nat) (s : GameState) :
    Option Err × GameState :=
  let minTokens : Option Int := (s.tokens.map fun gt => gt.count).min?
  if (match minTokens with | some m => decide (m < 1) | none => false) then
    let stage : GameStage := if isFinished s.users s.guesses then .FINISHED else .GUESSING
    (none, { s with stage := stage })
  else if turnCount == 4 then
    advanceTurn authUserId ent cardId curPlayerOrder nextLogId s
  else (none, s)

/-- The phase 1/2 branch: the action must be a MOVE of a character matching
the turn's dice, over a distance of exactly one cell. -/
def doPhase12 (authUserId : String) (req : ActionRequest) (s : GameState)
    (lastLog : GameLogEntry) (nextLogId : Nat) (turnCount : Nat)
    (characterLocation : Option Nat) : Except Err ActionResult × GameState :=
  if req.type != .MOVE then
    (.error (.response ⟨400, "First two turn actions must be MOVE"⟩), s)
  else
    match req.moveTo with
    | none => (.error (.response ⟨400, "moveTo is required for MOVE action"⟩), s)
    | some moveTo =>
      if !(strTruthy req.characterId) then
        (.error (.response ⟨400, "character is required for MOVE action"⟩), s)
      else
        let characterId := req.characterId.getD ""
        let rollEntry := (s.log.get? (s.log.length - turnCount)).getD default
        if !(if turnCount == 2 then
              movesMatch (lastLog.character.getD "") characterId rollEntry.die1 rollEntry.die2
            else
              moveMatches characterId rollEntry.die1 || moveMatches characterId rollEntry.die2) then
          (.error (.response ⟨400, "Invalid move"⟩), s)
        else if gridDist (characterLocation.getD 0) moveTo.toNat != 1 then
          (.error (.response ⟨400, "Must move exactly 1 space"⟩), s)
        else
          let s1 := appendLog s
            { id := nextLogId, app_user := authUserId, action := .MOVE,
              character := some characterId, move_from := characterLocation }
          let s2 : GameState :=
            { s1 with characters := s1.characters.map fun gc =>
                if gc.character == characterId then { gc with location := moveTo.toNat } else gc }
          (.ok .unit, s2)

/-- The tail of the phase 3/4 branch: run the resolver, then the epilogue. -/
def phase34Tail (authUserId : String) (req : ActionRequest) (ent : Entropy)
    (s : GameState) (nextLogId tc curOrder : Nat) (cardId : String)
    (cardCharacterId cardTokenId : Option String) (loc : Option Nat) :
    Except Err ActionResult × GameState :=
  match resolveAction authUserId req ent s nextLogId cardId cardCharacterId
      cardTokenId loc with
  | (.error e, s1) => (.error e, s1)
  | (.ok actionResult, s1) =>
    match afterAction authUserId ent cardId tc curOrder nextLogId s1 with
    | (some e, s2) => (.error e, s2)
    | (none, s2) => (.ok actionResult, s2)

/-- The phase 3/4 branch after the phase-4 card identity check: card lookup,
slot matching, the resolver and the epilogue. -/
def doPhase34 (authUserId : String) (req : ActionRequest) (ent : Entropy)
    (s : GameState) (lastLog : GameLogEntry) (nextLogId : Nat)
    (turnCount curPlayerOrder : Nat) (characterLocation : Option Nat) :
    Except Err ActionResult × GameState :=
  if !(strTruthy req.cardId) then
    (.error (.response ⟨400, "Must select card"⟩), s)
  else
    let cardId := req.cardId.getD ""
    match (s.userCards.find? fun uc => uc.card == cardId && uc.app_user == authUserId).bind
        (fun _ => s.cards.find? fun c => c.id == cardId) with
    | none => (.error (.response ⟨400, "Card not found"⟩), s)
    | some card =>
      if card.action1 == card.action2 then
        (.error (.fatal "Cannot distinguish actions"), s)
      else if !(if turnCount == 4 then
            (card.action1 == lastLog.action && card.action2 == req.type) ||
            (card.action1 == req.type && card.action2 == lastLog.action)
          else
            card.action1 == req.type || card.action2 == req.type) then
        (.error (.response ⟨400, "Invalid action"⟩), s)
      else
        let cardCharacterId := if card.action1 == req.type then card.character1 else card.character2
        let cardTokenId := if card.action1 == req.type then card.token1 else card.token2
        phase34Tail authUserId req ent s nextLogId turnCount curPlayerOrder cardId
          cardCharacterId cardTokenId characterLocation

/-- Translation of the POST /game/:gameId handler: derive the active player
and phase from the log, reject a non-active caller, and dispatch on the
phase. -/
def applyAction (authUserId : String) (req : ActionRequest) (ent : Entropy)
    (s : GameState) : Except Err ActionResult × GameState :=
  if !s.created then (.error (.response ⟨404, "Game not found"⟩), s)
  else if !(usersOrdered s.users) then (.error (.fatal "Bad user state"), s)
  else if !(s.users.any fun gu => gu.app_user == authUserId) then
    (.error (.response ⟨404, "Game not found"⟩), s)
  else
    match s.log.getLast? with
    | none => (.error (.fatal "Illegal state"), s)
    | some lastLog =>
      let nextLogId := lastLog.id + 1
      let lastPlayerId := lastLog.app_user
      let turnCount := turnCountOf s.log lastPlayerId
      match s.users.find? fun gu => gu.app_user == lastPlayerId with
      | none => (.error (.fatal "Bad user state"), s)
      | some found =>
        let curPlayerOrder := found.game_order
        match s.users.get? curPlayerOrder with
        | none => (.error (.fatal "Bad user state"), s)
        | some curPlayer =>
          if authUserId != curPlayer.app_user then
            (.error (.response ⟨400, "Not your turn"⟩), s)
          else
            let characterLocationE : Except Err (Option Nat) :=
              if strTruthy req.characterId then
                (getLocation s (req.characterId.getD "")).map some
              else .ok none
            match characterLocationE with
            | .error e => (.error e, s)
            | .ok characterLocation =>
              if (match req.moveTo with
                  | some m => m < 0 || m > 11
                  | none => false) then
                (.error (.response ⟨400, "moveTo must be an integer from 0 to 11"⟩), s)
              else
                match turnCount with
                | 1 => doPhase12 authUserId req s lastLog nextLogId 1 characterLocation
                | 2 => doPhase12 authUserId req s lastLog nextLogId 2 characterLocation
                | 3 => doPhase34 authUserId req ent s lastLog nextLogId 3 curPlayerOrder
                    characterLocation
                | 4 =>
                  if req.cardId != lastLog.card then
                    (.error (.response ⟨400, "Card did not match previous action"⟩), s)
                  else
                    doPhase34 authUserId req ent s lastLog nextLogId 4 curPlayerOrder
                      characterLocation
                | _ => (.error (.fatal "Unexpected turn count"), s)

/-- Translation of the POST /game/:gameId/guess handler (upsert a guess and
re-run the completion check). -/
def upsertGuess (authUserId characterId userId : String) (guess : Bool)
    (s : GameState) : Option Err × GameState :=
  if characterId.isEmpty then
    (some (.response ⟨400, "characterId is required for guess update request"⟩), s)
  else if userId.isEmpty then
    (some (.response ⟨400, "userId is required for guess update request"⟩), s)
  else if !s.created then (some (.response ⟨404, "Game not found"⟩), s)
  else
    let guesses :=
      if s.guesses.any fun g =>
          g.app_user == authUserId && g.character == characterId && g.target_user == userId then
        s.guesses.map fun g =>
          if g.app_user == authUserId && g.character == characterId && g.target_user == userId then
            { g with guess := guess }
          else g
      else s.guesses ++ [⟨authUserId, characterId, userId, guess⟩]
    let s1 := { s with guesses := guesses }
    if isFinished s1.users s1.guesses then (none, { s1 with stage := .FINISHED })
    else (none, s1)

/-- Translation of the DELETE /game/:gameId/guess handler. -/
def deleteGuess (authUserId characterId userId : String) (s : GameState) :
    Option Err × GameState :=
  if characterId.isEmpty then
    (some (.response ⟨400, "characterId is required for guess update request"⟩), s)
  else if userId.isEmpty then
    (some (.response ⟨400, "userId is required for guess update request"⟩), s)
  else if !s.created then (some (.response ⟨404, "Game not found"⟩), s)
  else
    let s1 : GameState :=
      { s with guesses := s.guesses.filter fun g =>
          !(g.app_user == authUserId && g.character == characterId && g.target_user == userId) }
    if isFinished s1.users s1.guesses then (none, { s1 with stage := .FINISHED })
    else (none, s1)

/-- The three token catalog ids the dealer hard-codes. -/
def tokenIds : List String :=
  ["5df859ba-791f-411a-838d-f7615a7b3e17",
   "3022189f-3702-4678-a16d-0eea5fbbcc74",
   "a41fda70-5b68-4ded-940a-63f8ae7ac987"]

/-- The fixed board locations of the three token types. -/
def tokenLocs : List (List Nat) :=
  [[1, 2, 4, 6, 7, 8, 11],
   [0, 1, 3, 5, 6, 8, 10],
   [2, 3, 4, 5, 9, 10, 11]]

/-- The ten character catalog ids the dealer hard-codes. -/
def characterIds : List String :=
  ["53b104c4-15cc-411f-bd68-97c84d200b20",
   "6062b068-48b7-4aa5-81bf-5a137a936ba9",
   "2b2cc145-937b-49d0-ad10-67aa51f2eda2",
   "9a9de24b-05ab-4181-92d1-dbc4cdb0287a",
   "ba4fea2c-cf3b-4be0-8252-73cf77f873e8",
   "d2ed6bb6-134d-4655-ba57-1adb8de316a1",
   "e0908190-3e04-402a-95c3-34993097d31c",
   "a9bcf5d2-71bf-4d32-8de2-dec571768424",
   "e9f2b5d7-514e-4f18-9e18-67a02afecc56",
   "07817c98-5d35-4acf-aa67-d9bb5caab84b"]

/-- A card before it is inserted into game_card (no id or deck order yet),
the Partial of GameCardTable the dealer accumulates. -/
structure CardSpec where
  action1 : ActionType
  character1 : Option String := none
  token1 : Option String := none
  action2 : ActionType
  character2 : Option String := none
  token2 : Option String := none
deriving DecidableEq, Repr, Inhabited

/-- The database before a game exists: no game row, no table rows. -/
def emptyGame : GameState :=
  { created := false, owner := "", gname := "", stage := .PLAYING,
    users := [], tokens := [], tokenLocations := [], userTokens := [],
    characters := [], cards := [], userCards := [], guesses := [], log := [] }

/-- Entropy consumed by one createGame call: the opening dice roll and the
four further shuffles (sight-card binding, starting positions, the deck,
player assignment). -/
structure CreateEntropy where
  dice : DiceEntropy
  seedSight : Nat → Nat
  seedLoc : Nat → Nat
  seedDeck : Nat → Nat
  seedPlayer : Nat → Nat

/-- State of the dealing loop: the in-memory cards array the source pops
from, plus the persisted game. -/
structure DealSt where
  mem : List GameCard
  s : GameState

/-- One cards.pop(): take the last in-memory card, clear its deck_order in
game_card and put it into the player's hand.  Popping an empty array would
crash the source handler. -/
def popCard (authUserId : String) (st : DealSt) : Option Err × DealSt :=
  match st.mem.getLast? with
  | none => (some (.fatal "Cannot read id of undefined"), st)
  | some c =>
    let s1 : GameState :=
      { st.s with cards := st.s.cards.map fun gc =>
          if gc.id == c.id then { gc with deck_order := none } else gc }
    let s2 := { s1 with userCards := s1.userCards ++ [⟨c.id, authUserId⟩] }
    (none, ⟨st.mem.dropLast, s2⟩)

/-- The body of one dealing iteration: insert the game_user row for player i
and pop two cards into that player's hand. -/
def dealUser (cs4 : List String) (i : Nat) (uid : String) (st : DealSt) :
    Option Err × DealSt :=
  let st0 : DealSt := ⟨st.mem, { st.s with users := st.s.users ++ [⟨uid, (cs4.get? i).getD "", i⟩] }⟩
  match popCard uid st0 with
  | (some e, st1) => (some e, st1)
  | (none, st1) => popCard uid st1

/-- The dealing loop over the supplied players. -/
def dealLoop (cs4 : List String) (i : Nat) (uids : List String) (st : DealSt) :
    Option Err × DealSt :=
  match uids with
  | [] => (none, st)
  | uid :: rest =>
    match dealUser cs4 i uid st with
    | (some e, st1) => (some e, st1)
    | (none, st1) => dealLoop cs4 (i + 1) rest st1

/-- The eight action cards that do not depend on the character shuffles:
the two opening cards plus one MOVE and one ELIMINATE pairing per token. -/
def createCards1 : List CardSpec :=
  [{ action1 := .PICK_TOKEN, action2 := .MOVE },
   { action1 := .PICK_TOKEN, action2 := .ELIMINATE }] ++
  (tokenIds.flatMap fun t =>
    [{ action1 := .SPECIFIC_TOKEN, token1 := some t, action2 := .MOVE },
     { action1 := .SPECIFIC_TOKEN, token1 := some t, action2 := .ELIMINATE }])

/-- The character list after the opening dice roll's shuffle. -/
def createCs1 (e : CreateEntropy) : List String := (rollDice e.dice characterIds).2

/-- The character list after the sight-card shuffle. -/
def createCs2 (e : CreateEntropy) : List String := shuffle e.seedSight (createCs1 e)

/-- All twenty-eight card specs: the fixed eight plus two SIGHT cards per
shuffled character. -/
def createCards2 (e : CreateEntropy) : List CardSpec :=
  createCards1 ++ ((createCs2 e).enum.flatMap fun p =>
    [{ action1 := .PICK_TOKEN, action2 := .SIGHT, character2 := some p.2 },
     { action1 := if p.1 % 2 == 0 then .MOVE else .ELIMINATE,
       action2 := .SIGHT, character2 := some p.2 }])

/-- The character list after the starting-position shuffle. -/
def createCs3 (e : CreateEntropy) : List String := shuffle e.seedLoc (createCs2 e)

/-- The freshly dealt deck: the shuffled card specs given ids and deck
positions. -/
def createDeckCards (e : CreateEntropy) : List GameCard :=
  (shuffle e.seedDeck (createCards2 e)).enum.map fun p =>
    { id := "card" ++ toString p.1, deck_order := some p.1,
      action1 := p.2.action1, character1 := p.2.character1, token1 := p.2.token1,
      action2 := p.2.action2, character2 := p.2.character2, token2 := p.2.token2 }

/-- The character list after the player-assignment shuffle. -/
def createCs4 (e : CreateEntropy) : List String := shuffle e.seedPlayer (createCs3 e)

/-- The persisted game tables right before the dealing loop: the game row,
the token stocks and board positions, the opening ROLL entry, the character
placements and the full deck. -/
def createS4 (authUserId gname : String) (userIds : List String)
    (e : CreateEntropy) : GameState :=
  let s0 : GameState :=
    { emptyGame with created := true, owner := authUserId, gname := gname }
  let tokenCount : Int := userIds.length + 2
  let s1 : GameState :=
    { s0 with
      tokens := tokenIds.map fun t => ⟨t, tokenCount⟩,
      tokenLocations := (tokenIds.zip tokenLocs).flatMap fun p =>
        p.2.map fun l => ⟨p.1, l⟩ }
  let rolled := rollDice e.dice characterIds
  let s2 := appendLog s1
    { id := 0, app_user := (userIds.get? 0).getD "", action := .ROLL,
      die1 := rolled.1.1, die2 := rolled.1.2 }
  let s3 : GameState :=
    { s2 with characters := (createCs3 e).enum.map fun p =>
        ⟨p.2, if p.1 < 5 then p.1 else p.1 + 2, false⟩ }
  { s3 with cards := createDeckCards e }

/-- Translation of the PUT /game handler.  `knownUsers` stands for the
app_user table.  Returns the error, if any, together with the state of the
game tables when the handler ends -- queries already executed stay
committed because the source opens no transaction. -/
def createGame (knownUsers : List String) (authUserId gname : String)
    (userIds : List String) (e : CreateEntropy) : Option Err × GameState :=
  if gname.isEmpty then (some (.response ⟨400, "name is required"⟩), emptyGame)
  else if userIds.isEmpty then (some (.response ⟨400, "userIds are required"⟩), emptyGame)
  else
    match userIds.find? fun uid => !(knownUsers.contains uid) with
    | some _ => (some (.response ⟨404, "User not found"⟩), emptyGame)
    | none =>
      -- the game row is inserted before the player count is examined
      let s0 : GameState :=
        { emptyGame with created := true, owner := authUserId, gname := gname }
      let playerCount := userIds.length
      if playerCount < 2 || playerCount > 6 then
        (some (.response ⟨400, "Player count must be 2-6"⟩), s0)
      else
        let res := dealLoop (createCs4 e) 0 userIds
          ⟨createDeckCards e, createS4 authUserId gname userIds e⟩
        (res.1, res.2.s)

/-! ## Supporting lemmas -/

/-- A user list that passes the game_order sanity loop has each member at
the index its game_order names. -/
theorem usersOrdered_get (users : List GameUser) (h : usersOrdered users = true)
    (i : Nat) (gu : GameUser) (hg : users.get? i = some gu) : gu.game_order = i := by
  unfold usersOrdered at h
  rw [List.all_eq_true] at h
  have hlen : i < users.length := by
    have := List.get?_eq_some.mp hg
    exact this.1
  have hmatch := h i (List.mem_range.mpr hlen)
  rw [hg] at hmatch
  simp only [beq_iff_eq] at hmatch
  exact hmatch

/-- In an ordered user list, indexing with a member's game_order returns
that member. -/
theorem ordered_get_self (users : List GameUser) (h : usersOrdered users = true)
    (gu : GameUser) (hmem : gu ∈ users) : users.get? gu.game_order = some gu := by
  obtain ⟨i, hi⟩ := List.get?_of_mem hmem
  have he := usersOrdered_get users h i gu hi
  rw [he]
  exact hi

/-! ## Claim C6: the deduction-completion check -/

/-- The specification form of deduction completion: every ordered pair of
distinct players carries exactly one true guess. -/
def deductionComplete (users : List GameUser) (guesses : List GameUserGuess) : Prop :=
  ∀ u ∈ users, ∀ t ∈ users, t.app_user ≠ u.app_user →
    (guesses.filter fun g =>
      g.app_user == u.app_user && g.target_user == t.app_user && g.guess).length = 1

/-- Claim C6: isFinished returns true iff for every ordered pair of distinct
players (A, B) the list of guesses holds exactly one true guess by A about
B across all characters; any other count for some pair makes it false. -/
theorem c6_isFinished_iff (users : List GameUser) (guesses : List GameUserGuess) :
    isFinished users guesses = true ↔ deductionComplete users guesses := by
  unfold isFinished deductionComplete
  simp only [List.all_eq_true, Bool.or_eq_true, beq_iff_eq]
  constructor
  · intro h u hu t ht hne
    rcases h u hu t ht with heq | hlen
    · exact absurd heq hne
    · exact hlen
  · intro h u hu t ht
    by_cases hne : t.app_user = u.app_user
    · exact Or.inl hne
    · exact Or.inr (h u hu t ht hne)

/-! ## Concrete fixtures used by counterexamples and witnesses -/

/-- Fixed entropy for concrete evaluations. -/
def fxEnt : Entropy := ⟨0, ⟨fun _ => 0, false, false⟩⟩

/-- Fixed entropy for concrete createGame evaluations. -/
def fxCreateEnt : CreateEntropy :=
  ⟨⟨fun _ => 0, false, false⟩, fun _ => 0, fun _ => 0, fun _ => 0, fun _ => 0⟩

/-- A two player game in stage FINISHED whose deduction check no longer
holds (no guesses recorded) and whose single token row has stock 0; alice
is at phase 3 of her turn and holds a SPECIFIC_TOKEN/MOVE card. -/
def fxScarce : GameState :=
  { created := true, owner := "alice", gname := "g", stage := .FINISHED,
    users := [⟨"alice", "ca", 0⟩, ⟨"bob", "cb", 1⟩],
    tokens := [⟨"t1", 0⟩],
    tokenLocations := [⟨"t1", 1⟩],
    userTokens := [],
    characters := [⟨"ca", 1, false⟩, ⟨"cb", 5, false⟩, ⟨"cc", 6, false⟩],
    cards := [{ id := "card1", action1 := .SPECIFIC_TOKEN, token1 := some "t1",
                action2 := .MOVE }],
    userCards := [⟨"card1", "alice"⟩],
    guesses := [],
    log := [{ id := 0, app_user := "alice", action := .ROLL, die1 := some "ca" },
            { id := 1, app_user := "alice", action := .MOVE, character := some "ca",
              move_from := some 0 },
            { id := 2, app_user := "alice", action := .MOVE, character := some "cb",
              move_from := some 4 }] }

/-- The phase-3 SPECIFIC_TOKEN request alice submits on fxScarce. -/
def fxScarceReq : ActionRequest := { type := .SPECIFIC_TOKEN, cardId := some "card1" }

/-! ## Claim C4: stage transitions out of FINISHED -/

/-- Claim C4 counterexample: on fxScarce, whose stage is FINISHED, the
accepted SPECIFIC_TOKEN action makes the token-scarcity re-check rewrite
the stage to GUESSING -- applyAction does revert a FINISHED game. -/
theorem c4_counterexample :
    fxScarce.stage = GameStage.FINISHED ∧
    (applyAction "alice" fxScarceReq fxEnt fxScarce).1 = Except.ok ActionResult.unit ∧
    (applyAction "alice" fxScarceReq fxEnt fxScarce).2.stage = GameStage.GUESSING := by
  refine ⟨rfl, rfl, rfl⟩

/-- Claim C4 (amended): the guess handlers never change a stage away from
FINISHED -- they either keep the stage or set it to FINISHED. -/
theorem c4_amended_guess_ops (authUserId characterId userId : String)
    (guess : Bool) (s : GameState) (h : s.stage = GameStage.FINISHED) :
    (upsertGuess authUserId characterId userId guess s).2.stage = GameStage.FINISHED ∧
    (deleteGuess authUserId characterId userId s).2.stage = GameStage.FINISHED := by
  unfold upsertGuess deleteGuess
  constructor <;> (repeat' split) <;> simp_all

/-- Witness for the amended C4 theorem on the FINISHED fixture. -/
theorem c4_amended_guess_ops_witness :
    (upsertGuess "alice" "ca" "bob" true fxScarce).2.stage = GameStage.FINISHED ∧
    (deleteGuess "alice" "ca" "bob" fxScarce).2.stage = GameStage.FINISHED :=
  c4_amended_guess_ops "alice" "ca" "bob" true fxScarce rfl

/-! ## Claim C3: atomicity of failing operations -/

/-- Claim C3 evidence: createGame with a single player fails with the
player-count error, yet the returned table state shows the game row was
inserted before the check -- the persisted state is not what it was before
the call. -/
theorem c3_partial_effects_on_error :
    (createGame ["u1"] "owner" "g" ["u1"] fxCreateEnt).1 =
      some (Err.response ⟨400, "Player count must be 2-6"⟩) ∧
    (createGame ["u1"] "owner" "g" ["u1"] fxCreateEnt).2.created = true ∧
    emptyGame.created = false := by
  refine ⟨rfl, rfl, rfl⟩

/-! ## Claim C7: rejection of a non-active caller -/

/-- Claim C7 counterexample: carol is not the active player of fxScarce but
her request fails with the 404 Game-not-found response (the NotFound kind),
not with the 400 Not-your-turn response (the Forbidden kind). -/
theorem c7_counterexample :
    "carol" ≠ (fxScarce.log.getLast?.getD default).app_user ∧
    (applyAction "carol" fxScarceReq fxEnt fxScarce).1 =
      Except.error (Err.response ⟨404, "Game not found"⟩) ∧
    Err.response ⟨404, "Game not found"⟩ ≠ Err.response ⟨400, "Not your turn"⟩ := by
  refine ⟨by decide, rfl, by decide⟩

/-- Claim C7 (amended): a game participant who is not the active player
(the actor of the last log entry) is rejected with the 400 Not-your-turn
response and the state is unchanged. -/
theorem c7_amended (authUserId : String) (req : ActionRequest) (ent : Entropy)
    (s : GameState) (lastLog : GameLogEntry)
    (hc : s.created = true)
    (hord : usersOrdered s.users = true)
    (hauth : ∃ gu ∈ s.users, gu.app_user = authUserId)
    (hlast : s.log.getLast? = some lastLog)
    (hlp : ∃ gu ∈ s.users, gu.app_user = lastLog.app_user)
    (hne : authUserId ≠ lastLog.app_user) :
    applyAction authUserId req ent s =
      (Except.error (Err.response ⟨400, "Not your turn"⟩), s) := by
  have hany : (s.users.any fun gu => gu.app_user == authUserId) = true := by
    rw [List.any_eq_true]
    obtain ⟨gu, hgu, he⟩ := hauth
    exact ⟨gu, hgu, by simp [he]⟩
  have hfind : (s.users.find? fun gu => gu.app_user == lastLog.app_user).isSome := by
    rw [List.find?_isSome]
    obtain ⟨gu, hgu, he⟩ := hlp
    exact ⟨gu, hgu, by simp [he]⟩
  obtain ⟨found, hfound⟩ := Option.isSome_iff_exists.mp hfind
  have hfp : found.app_user = lastLog.app_user := by
    have := List.find?_some hfound
    simpa using this
  have hmem := List.mem_of_find?_eq_some hfound
  have hget := ordered_get_self s.users hord found hmem
  have hbne : (authUserId != lastLog.app_user) = true := bne_iff_ne.mpr hne
  unfold applyAction
  simp only [hc, hord, hany, hlast, hfound, hget, hfp, hbne, Bool.not_true,
    Bool.false_eq_true, if_false, if_true]

/-- Witness for the amended C7 theorem: bob acts on fxScarce although alice
is the active player. -/
theorem c7_amended_witness :
    applyAction "bob" fxScarceReq fxEnt fxScarce =
      (Except.error (Err.response ⟨400, "Not your turn"⟩), fxScarce) :=
  c7_amended "bob" fxScarceReq fxEnt fxScarce
    { id := 2, app_user := "alice", action := .MOVE, character := some "cb",
      move_from := some 4 }
    rfl (by decide) ⟨⟨"bob", "cb", 1⟩, by decide, rfl⟩ rfl
    ⟨⟨"alice", "ca", 0⟩, by decide, rfl⟩ (by decide)

/-! ## Claim C1: dice matching for the phase 1 and 2 moves -/

/-- Specification wildcard rule: a die matches a moved character when it
shows no result or names that character. -/
def dieMatchesSpec (die : Option String) (moved : String) : Prop :=
  die = none ∨ die = some moved

/-- Specification pairing rule: the two moved characters can be assigned to
the two dice in either order. -/
def pairedSpec (move1 move2 : String) (die1 die2 : Option String) : Prop :=
  (dieMatchesSpec die1 move1 ∧ dieMatchesSpec die2 move2) ∨
  (dieMatchesSpec die2 move1 ∧ dieMatchesSpec die1 move2)

/-- The source moveMatches agrees with the wildcard rule. -/
theorem moveMatches_iff (m : String) (d : Option String) :
    moveMatches m d = true ↔ dieMatchesSpec d m := by
  cases d <;> simp [moveMatches, dieMatchesSpec]

/-- The source movesMatch agrees with the pairing rule. -/
theorem movesMatch_iff (m1 m2 : String) (d1 d2 : Option String) :
    movesMatch m1 m2 d1 d2 = true ↔ pairedSpec m1 m2 d1 d2 := by
  simp [movesMatch, pairedSpec, Bool.or_eq_true, Bool.and_eq_true, moveMatches_iff]

/-- Whether a handler outcome is a success. -/
def accepted (r : Except Err ActionResult × GameState) : Bool :=
  match r.1 with
  | .ok _ => true
  | .error _ => false

/-- Reduction of applyAction to its phase dispatch once the caller is the
active player and the shared early validations pass. -/
theorem applyAction_dispatch (authUserId : String) (req : ActionRequest)
    (ent : Entropy) (s : GameState) (lastLog : GameLogEntry) (found : GameUser)
    (characterLocation : Option Nat)
    (hc : s.created = true)
    (hord : usersOrdered s.users = true)
    (hauth : ∃ gu ∈ s.users, gu.app_user = authUserId)
    (hlast : s.log.getLast? = some lastLog)
    (hfound : (s.users.find? fun gu => gu.app_user == lastLog.app_user) = some found)
    (hactive : lastLog.app_user = authUserId)
    (hcl : (if strTruthy req.characterId then
             (getLocation s (req.characterId.getD "")).map some
           else .ok none) = Except.ok characterLocation)
    (hmvg : (match req.moveTo with
             | some m => decide (m < 0) || decide (m > 11)
             | none => false) = false) :
    applyAction authUserId req ent s =
      (match turnCountOf s.log lastLog.app_user with
       | 1 => doPhase12 authUserId req s lastLog (lastLog.id + 1) 1 characterLocation
       | 2 => doPhase12 authUserId req s lastLog (lastLog.id + 1) 2 characterLocation
       | 3 => doPhase34 authUserId req ent s lastLog (lastLog.id + 1) 3 found.game_order
           characterLocation
       | 4 =>
         if req.cardId != lastLog.card then
           (Except.error (Err.response ⟨400, "Card did not match previous action"⟩), s)
         else
           doPhase34 authUserId req ent s lastLog (lastLog.id + 1) 4 found.game_order
             characterLocation
       | _ => (Except.error (Err.fatal "Unexpected turn count"), s)) := by
  have hany : (s.users.any fun gu => gu.app_user == authUserId) = true := by
    rw [List.any_eq_true]
    obtain ⟨gu, hgu, he⟩ := hauth
    exact ⟨gu, hgu, by simp [he]⟩
  have hfp : found.app_user = lastLog.app_user := by
    have := List.find?_some hfound
    simpa using this
  have hget := ordered_get_self s.users hord found (List.mem_of_find?_eq_some hfound)
  have hbne : (authUserId != found.app_user) = false := by
    rw [bne_eq_false_iff_eq, hfp, hactive]
  unfold applyAction
  simp only [hc, hord, hany, hlast, hfound, hget, hbne, hcl, hmvg, Bool.not_true,
    Bool.false_eq_true, if_false, if_true]

/-- Claim C1: with the caller active and every other requirement of a
phase 1/2 MOVE satisfied (MOVE type, a bound character with a location, a
destination in range at distance 1), the move is accepted at phase 2 iff
the phase-1 and phase-2 moved characters can be paired against the turn's
two dice in either order, and at phase 1 iff the moved character matches
at least one of the two dice, treating a no-result die as a wildcard. -/
theorem c1_dice_matching (authUserId : String) (req : ActionRequest)
    (ent : Entropy) (s : GameState) (lastLog rollEntry : GameLogEntry)
    (found : GameUser) (gc : GameCharacter) (c : String) (mv : Int)
    (hc : s.created = true)
    (hord : usersOrdered s.users = true)
    (hauth : ∃ gu ∈ s.users, gu.app_user = authUserId)
    (hlast : s.log.getLast? = some lastLog)
    (hfound : (s.users.find? fun gu => gu.app_user == lastLog.app_user) = some found)
    (hactive : lastLog.app_user = authUserId)
    (htype : req.type = ActionType.MOVE)
    (hchar : req.characterId = some c)
    (hcne : c.isEmpty = false)
    (hmv : req.moveTo = some mv)
    (hmv0 : 0 ≤ mv) (hmv11 : mv ≤ 11)
    (hloc : (s.characters.find? fun gcx => gcx.character == c) = some gc)
    (hdist : gridDist gc.location mv.toNat = 1)
    (hroll : s.log.get? (s.log.length - turnCountOf s.log lastLog.app_user) =
      some rollEntry) :
    (turnCountOf s.log lastLog.app_user = 2 →
      ∀ m1, lastLog.character = some m1 →
        (accepted (applyAction authUserId req ent s) = true ↔
          pairedSpec m1 c rollEntry.die1 rollEntry.die2)) ∧
    (turnCountOf s.log lastLog.app_user = 1 →
      (accepted (applyAction authUserId req ent s) = true ↔
        dieMatchesSpec rollEntry.die1 c ∨ dieMatchesSpec rollEntry.die2 c)) := by
  have hcl : (if strTruthy req.characterId then
               (getLocation s (req.characterId.getD "")).map some
             else .ok none) = Except.ok (some gc.location) := by
    rw [hchar]
    simp [strTruthy, hcne, getLocation, hloc, Except.map]
  have hmvg : (match req.moveTo with
               | some m => decide (m < 0) || decide (m > 11)
               | none => false) = false := by
    rw [hmv]
    simp
    omega
  have hd := applyAction_dispatch authUserId req ent s lastLog found (some gc.location)
    hc hord hauth hlast hfound hactive hcl hmvg
  constructor
  · intro htc m1 hm1
    rw [hd, htc]
    show accepted (doPhase12 authUserId req s lastLog (lastLog.id + 1) 2
      (some gc.location)) = true ↔ _
    rw [htc] at hroll
    unfold doPhase12
    simp only [htype, hchar, hmv, hm1, hroll, bne_self_eq_false, Bool.false_eq_true,
      if_false, strTruthy, hcne, Bool.not_false, if_true, Option.getD_some]
    simp only [hdist, bne_self_eq_false, Bool.false_eq_true, if_false]
    rw [← movesMatch_iff]
    cases hmm : movesMatch m1 c rollEntry.die1 rollEntry.die2 <;>
      simp [accepted, hmm]
  · intro htc
    rw [hd, htc]
    show accepted (doPhase12 authUserId req s lastLog (lastLog.id + 1) 1
      (some gc.location)) = true ↔ _
    rw [htc] at hroll
    unfold doPhase12
    simp only [htype, hchar, hmv, hroll, bne_self_eq_false, Bool.false_eq_true,
      if_false, strTruthy, hcne, Bool.not_false, if_true, Option.getD_some]
    simp only [hdist, bne_self_eq_false, Bool.false_eq_true, if_false]
    rw [← moveMatches_iff, ← moveMatches_iff]
    cases hm1 : moveMatches c rollEntry.die1 <;>
      cases hm2 : moveMatches c rollEntry.die2 <;>
      simp [accepted, hm1, hm2]

/-- A two player game where alice has rolled and made her first move: the
next action is a phase-2 MOVE. -/
def fxP2 : GameState :=
  { created := true, owner := "alice", gname := "g", stage := .PLAYING,
    users := [⟨"alice", "ca", 0⟩, ⟨"bob", "cb", 1⟩],
    tokens := [⟨"t1", 4⟩],
    tokenLocations := [⟨"t1", 1⟩],
    userTokens := [],
    characters := [⟨"ca", 1, false⟩, ⟨"cb", 5, false⟩],
    cards := [],
    userCards := [],
    guesses := [],
    log := [{ id := 0, app_user := "alice", action := .ROLL, die1 := some "ca" },
            { id := 1, app_user := "alice", action := .MOVE, character := some "ca",
              move_from := some 0 }] }

/-- The last log entry of fxP2 (the phase-1 MOVE). -/
def fxP2move : GameLogEntry :=
  { id := 1, app_user := "alice", action := .MOVE, character := some "ca",
    move_from := some 0 }

/-- The opening ROLL entry of fxP2. -/
def fxP2roll : GameLogEntry :=
  { id := 0, app_user := "alice", action := .ROLL, die1 := some "ca" }

/-- The phase-2 MOVE request of the C1 witness. -/
def fxP2req : ActionRequest :=
  { type := .MOVE, characterId := some "cb", moveTo := some 4 }

/-- Witness for claim C1 on the concrete phase-2 fixture. -/
theorem c1_dice_matching_witness :
    (turnCountOf fxP2.log fxP2move.app_user = 2 →
      ∀ m1, fxP2move.character = some m1 →
        (accepted (applyAction "alice" fxP2req fxEnt fxP2) = true ↔
          pairedSpec m1 "cb" fxP2roll.die1 fxP2roll.die2)) ∧
    (turnCountOf fxP2.log fxP2move.app_user = 1 →
      (accepted (applyAction "alice" fxP2req fxEnt fxP2) = true ↔
        dieMatchesSpec fxP2roll.die1 "cb" ∨ dieMatchesSpec fxP2roll.die2 "cb")) :=
  c1_dice_matching "alice" fxP2req fxEnt fxP2 fxP2move fxP2roll
    ⟨"alice", "ca", 0⟩ ⟨"cb", 5, false⟩ "cb" 4
    rfl (by decide) ⟨⟨"alice", "ca", 0⟩, by decide, rfl⟩ rfl (by decide) rfl rfl rfl
    (by decide) rfl (by decide) (by decide) (by decide) (by decide) rfl

/-! ## Claim C2: the phase-4 card reuse and slot matching -/

/-- Claim C2: at phase 4 (with the caller active, the submitted card in the
caller's hand and its two slots distinct), a successful action implies the
submitted card equals the phase-3 card and the phase-3 and phase-4 action
types exactly cover the card's two action types in either order; a
different card id is rejected with the card-mismatch error and a right card
with uncovered action types is rejected with the invalid-action error. -/
theorem c2_card_slots (authUserId : String) (req : ActionRequest)
    (ent : Entropy) (s : GameState) (lastLog : GameLogEntry) (found : GameUser)
    (card : GameCard) (cid : String) (characterLocation : Option Nat)
    (hc : s.created = true)
    (hord : usersOrdered s.users = true)
    (hauth : ∃ gu ∈ s.users, gu.app_user = authUserId)
    (hlast : s.log.getLast? = some lastLog)
    (hfound : (s.users.find? fun gu => gu.app_user == lastLog.app_user) = some found)
    (hactive : lastLog.app_user = authUserId)
    (hcl : (if strTruthy req.characterId then
             (getLocation s (req.characterId.getD "")).map some
           else .ok none) = Except.ok characterLocation)
    (hmvg : (match req.moveTo with
             | some m => decide (m < 0) || decide (m > 11)
             | none => false) = false)
    (htc : turnCountOf s.log lastLog.app_user = 4)
    (hcid : req.cardId = some cid)
    (hcidne : cid.isEmpty = false)
    (hhand : (⟨cid, authUserId⟩ : GameUserCard) ∈ s.userCards)
    (hcard : (s.cards.find? fun cx => cx.id == cid) = some card)
    (hdiff : card.action1 ≠ card.action2) :
    (accepted (applyAction authUserId req ent s) = true →
      some cid = lastLog.card ∧
        ((card.action1 = lastLog.action ∧ card.action2 = req.type) ∨
         (card.action1 = req.type ∧ card.action2 = lastLog.action))) ∧
    (some cid ≠ lastLog.card →
      applyAction authUserId req ent s =
        (Except.error (Err.response ⟨400, "Card did not match previous action"⟩), s)) ∧
    (some cid = lastLog.card →
      ¬((card.action1 = lastLog.action ∧ card.action2 = req.type) ∨
        (card.action1 = req.type ∧ card.action2 = lastLog.action)) →
      applyAction authUserId req ent s =
        (Except.error (Err.response ⟨400, "Invalid action"⟩), s)) := by
  have hd := applyAction_dispatch authUserId req ent s lastLog found characterLocation
    hc hord hauth hlast hfound hactive hcl hmvg
  rw [htc] at hd
  have hd4 : applyAction authUserId req ent s =
      (if (req.cardId != lastLog.card) = true then
        (Except.error (Err.response ⟨400, "Card did not match previous action"⟩), s)
      else doPhase34 authUserId req ent s lastLog (lastLog.id + 1) 4 found.game_order
        characterLocation) := hd
  have hex : (s.userCards.find? fun ucx => ucx.card == cid && ucx.app_user == authUserId).isSome := by
    rw [List.find?_isSome]
    exact ⟨⟨cid, authUserId⟩, hhand, by simp⟩
  obtain ⟨uc, huc⟩ := Option.isSome_iff_exists.mp hex
  have hdiffb : (card.action1 == card.action2) = false := by
    rw [beq_eq_false_iff_ne]
    exact hdiff
  have h44 : ((4 : Nat) == 4) = true := rfl
  have hp34 : doPhase34 authUserId req ent s lastLog (lastLog.id + 1) 4 found.game_order
      characterLocation =
      (if !((card.action1 == lastLog.action && card.action2 == req.type) ||
            (card.action1 == req.type && card.action2 == lastLog.action)) then
        (Except.error (Err.response ⟨400, "Invalid action"⟩), s)
      else
        phase34Tail authUserId req ent s (lastLog.id + 1) 4 found.game_order cid
          (if card.action1 == req.type then card.character1 else card.character2)
          (if card.action1 == req.type then card.token1 else card.token2)
          characterLocation) := by
    unfold doPhase34
    simp only [hcid, strTruthy, hcidne, Bool.not_false, Bool.not_true, if_true,
      Bool.false_eq_true, Bool.true_eq_false, if_false, Option.getD_some, huc,
      Option.some_bind, hcard, hdiffb, h44]
  refine ⟨?_, ?_, ?_⟩
  · intro hacc
    rw [hd4, hcid] at hacc
    by_cases hcardeq : some cid = lastLog.card
    · have hbne : ((some cid : Option String) != lastLog.card) = false := by
        simp [bne, hcardeq]
      rw [hbne] at hacc
      simp only [Bool.false_eq_true, if_false] at hacc
      rw [hp34] at hacc
      refine ⟨hcardeq, ?_⟩
      cases hcond : ((card.action1 == lastLog.action && card.action2 == req.type) ||
          (card.action1 == req.type && card.action2 == lastLog.action)) with
      | false =>
        rw [hcond] at hacc
        simp [accepted] at hacc
      | true =>
        simpa only [Bool.or_eq_true, Bool.and_eq_true, beq_iff_eq] using hcond
    · have hbne : ((some cid : Option String) != lastLog.card) = true :=
        bne_iff_ne.mpr hcardeq
      rw [hbne] at hacc
      simp [accepted] at hacc
  · intro hne
    rw [hd4, hcid]
    have hbne : ((some cid : Option String) != lastLog.card) = true := bne_iff_ne.mpr hne
    rw [hbne]
    simp
  · intro hcardeq hncov
    have hcond : ((card.action1 == lastLog.action && card.action2 == req.type) ||
        (card.action1 == req.type && card.action2 == lastLog.action)) = false := by
      rw [Bool.eq_false_iff]
      intro h
      exact hncov (by simpa only [Bool.or_eq_true, Bool.and_eq_true, beq_iff_eq] using h)
    rw [hd4, hcid]
    have hbne : ((some cid : Option String) != lastLog.card) = false := by
      simp [bne, hcardeq]
    rw [hbne]
    simp only [Bool.false_eq_true, if_false]
    rw [hp34, hcond]
    simp

/-- A two player game where alice has rolled, moved twice, and played the
SIGHT slot of card1 at phase 3: the next action is phase 4. -/
def fxP4 : GameState :=
  { created := true, owner := "alice", gname := "g", stage := .PLAYING,
    users := [⟨"alice", "ca", 0⟩, ⟨"bob", "cb", 1⟩],
    tokens := [⟨"t1", 4⟩],
    tokenLocations := [⟨"t1", 1⟩],
    userTokens := [],
    characters := [⟨"ca", 1, false⟩, ⟨"cb", 5, false⟩, ⟨"cc", 6, false⟩],
    cards := [{ id := "card1", action1 := .SIGHT, character1 := some "cc",
                action2 := .MOVE }],
    userCards := [⟨"card1", "alice"⟩],
    guesses := [],
    log := [{ id := 0, app_user := "alice", action := .ROLL, die1 := some "ca" },
            { id := 1, app_user := "alice", action := .MOVE, character := some "ca",
              move_from := some 0 },
            { id := 2, app_user := "alice", action := .MOVE, character := some "ca",
              move_from := some 1 },
            { id := 3, app_user := "alice", action := .SIGHT, card := some "card1",
              character := some "cc", sight_user := some "bob",
              sight_result := some false }] }

/-- The phase-3 log entry of fxP4. -/
def fxP4last : GameLogEntry :=
  { id := 3, app_user := "alice", action := .SIGHT, card := some "card1",
    character := some "cc", sight_user := some "bob", sight_result := some false }

/-- The card alice holds in fxP4. -/
def fxP4card : GameCard :=
  { id := "card1", action1 := .SIGHT, character1 := some "cc", action2 := .MOVE }

/-- The phase-4 MOVE request of the C2 witness. -/
def fxP4req : ActionRequest :=
  { type := .MOVE, cardId := some "card1", characterId := some "ca", moveTo := some 2 }

/-- Witness for claim C2 on the concrete phase-4 fixture. -/
theorem c2_card_slots_witness :
    (accepted (applyAction "alice" fxP4req fxEnt fxP4) = true →
      some "card1" = fxP4last.card ∧
        ((fxP4card.action1 = fxP4last.action ∧ fxP4card.action2 = fxP4req.type) ∨
         (fxP4card.action1 = fxP4req.type ∧ fxP4card.action2 = fxP4last.action))) ∧
    (some "card1" ≠ fxP4last.card →
      applyAction "alice" fxP4req fxEnt fxP4 =
        (Except.error (Err.response ⟨400, "Card did not match previous action"⟩), fxP4)) ∧
    (some "card1" = fxP4last.card →
      ¬((fxP4card.action1 = fxP4last.action ∧ fxP4card.action2 = fxP4req.type) ∨
        (fxP4card.action1 = fxP4req.type ∧ fxP4card.action2 = fxP4last.action)) →
      applyAction "alice" fxP4req fxEnt fxP4 =
        (Except.error (Err.response ⟨400, "Invalid action"⟩), fxP4)) :=
  c2_card_slots "alice" fxP4req fxEnt fxP4 fxP4last ⟨"alice", "ca", 0⟩ fxP4card
    "card1" (some 1) rfl (by decide) ⟨⟨"alice", "ca", 0⟩, by decide, rfl⟩ rfl
    (by decide) rfl rfl rfl rfl rfl rfl (by decide) rfl (by decide)

/-! ## Claim C8: ELIMINATE never blocks -/

/-- Membership in the ELIMINATE candidate list unfolds to a non-eliminated,
uncontrolled character row. -/
theorem elimCandidates_mem (s : GameState) (c : String) (h : c ∈ elimCandidates s) :
    ∃ gc ∈ s.characters, gc.character = c ∧ gc.eliminated = false ∧
      ∀ gu ∈ s.users, gu.character ≠ gc.character := by
  unfold elimCandidates at h
  rw [List.mem_map] at h
  obtain ⟨gc, hgc, hc⟩ := h
  rw [List.mem_filter] at hgc
  obtain ⟨hmem, hcond⟩ := hgc
  rw [Bool.and_eq_true, Bool.not_eq_true', Bool.not_eq_true'] at hcond
  refine ⟨gc, hmem, hc, hcond.1, ?_⟩
  intro gu hgu heq
  have : s.users.any (fun gu => gu.character == gc.character) = true :=
    List.any_eq_true.mpr ⟨gu, hgu, by simp [heq]⟩
  rw [this] at hcond
  exact absurd hcond.2 (by simp)

/-- A successful random pick is a candidate. -/
theorem getCharacterIdElim_mem (s : GameState) (pick : Nat) (c : String)
    (h : getCharacterIdElim s pick = some c) : c ∈ elimCandidates s := by
  simp only [getCharacterIdElim] at h
  split at h
  · exact absurd h (by simp)
  · exact List.get?_mem h

/-- When candidates exist the random pick succeeds with a candidate. -/
theorem getCharacterIdElim_some (s : GameState) (pick : Nat)
    (h : elimCandidates s ≠ []) :
    ∃ c, getCharacterIdElim s pick = some c ∧ c ∈ elimCandidates s := by
  have hlen : 0 < (elimCandidates s).length := List.length_pos.mpr h
  have hmod : pick % (elimCandidates s).length < (elimCandidates s).length :=
    Nat.mod_lt _ hlen
  have hget := List.get?_eq_get hmod
  have hne : (elimCandidates s).isEmpty = false := by
    rw [Bool.eq_false_iff]
    intro habs
    exact h (List.isEmpty_iff.mp habs)
  refine ⟨(elimCandidates s).get ⟨pick % (elimCandidates s).length, hmod⟩, ?_, ?_⟩
  · simp only [getCharacterIdElim, hne]
    simp [hget]
  · exact List.get_mem _ _ _

/-- After the game-wide eliminated reset, an uncontrolled character makes
the candidate list non-empty. -/
theorem elimCandidates_reset_ne (s : GameState)
    (hex : ∃ gc ∈ s.characters, ∀ gu ∈ s.users, gu.character ≠ gc.character) :
    elimCandidates (resetEliminated s) ≠ [] := by
  obtain ⟨gc, hgc, hun⟩ := hex
  have hany : (s.users.any fun gu => gu.character == gc.character) = false := by
    rw [Bool.eq_false_iff]
    intro h
    obtain ⟨gu, hgu, hb⟩ := List.any_eq_true.mp h
    exact hun gu hgu (by simpa using hb)
  have hmemc : gc.character ∈ elimCandidates (resetEliminated s) := by
    unfold elimCandidates resetEliminated
    rw [List.mem_map]
    refine ⟨{ gc with eliminated := false }, ?_, rfl⟩
    rw [List.mem_filter]
    refine ⟨List.mem_map.mpr ⟨gc, hgc, rfl⟩, ?_⟩
    simp [hany]
  exact List.ne_nil_of_mem hmemc


/-- applyEliminate leaves a row for the picked character marked
eliminated. -/
theorem applyEliminate_marks (authUserId : String) (nextLogId : Nat)
    (cardId c : String) (s0 : GameState) (gc : GameCharacter)
    (hgc : gc ∈ s0.characters) (hcc : gc.character = c) :
    ∃ gc2 ∈ (applyEliminate authUserId nextLogId cardId c s0).characters,
      gc2.character = c ∧ gc2.eliminated = true := by
  refine ⟨{ gc with eliminated := true }, ?_, by simp [hcc], rfl⟩
  unfold applyEliminate appendLog
  rw [List.mem_map]
  exact ⟨gc, hgc, by simp [hcc]⟩

/-- Claim C8: an ELIMINATE action always succeeds with an uncontrolled
character that ends marked eliminated, whenever at least one uncontrolled
character exists (falling back to the game-wide eliminated reset when the
first pick finds no candidate); and at least one uncontrolled character
does exist whenever there are fewer players than distinct characters, as
with 2-6 players of 10 characters. -/
theorem c8_eliminate_total (authUserId : String) (req : ActionRequest)
    (ent : Entropy) (s : GameState) (nextLogId : Nat) (cardId : String)
    (cardCharacterId cardTokenId : Option String) (characterLocation : Option Nat)
    (htype : req.type = ActionType.ELIMINATE)
    (hex : ∃ gc ∈ s.characters, ∀ gu ∈ s.users, gu.character ≠ gc.character) :
    (∃ c s2, resolveAction authUserId req ent s nextLogId cardId cardCharacterId
        cardTokenId characterLocation = (Except.ok (ActionResult.char c), s2) ∧
      (∃ gc ∈ s.characters, gc.character = c ∧ ∀ gu ∈ s.users, gu.character ≠ gc.character) ∧
      (∃ gc2 ∈ s2.characters, gc2.character = c ∧ gc2.eliminated = true)) ∧
    (s.users.length < s.characters.length →
      (s.characters.map fun gc => gc.character).Nodup →
      ∃ gc ∈ s.characters, ∀ gu ∈ s.users, gu.character ≠ gc.character) := by
  constructor
  · cases hpick : getCharacterIdElim s ent.elimPick with
    | some c =>
      obtain ⟨gc, hgc, hcc, helim, hun⟩ :=
        elimCandidates_mem s c (getCharacterIdElim_mem s ent.elimPick c hpick)
      have hres : resolveAction authUserId req ent s nextLogId cardId cardCharacterId
          cardTokenId characterLocation =
          (Except.ok (ActionResult.char c),
            applyEliminate authUserId nextLogId cardId c s) := by
        unfold resolveAction
        simp only [htype, hpick]
      exact ⟨c, _, hres, ⟨gc, hgc, hcc, hun⟩,
        applyEliminate_marks authUserId nextLogId cardId c s gc hgc hcc⟩
    | none =>
      obtain ⟨c, hp2, hmem2⟩ := getCharacterIdElim_some (resetEliminated s)
        ent.elimPick (elimCandidates_reset_ne s hex)
      obtain ⟨gc2, hgc2, hcc2, helim2, hun2⟩ := elimCandidates_mem _ c hmem2
      have hres : resolveAction authUserId req ent s nextLogId cardId cardCharacterId
          cardTokenId characterLocation =
          (Except.ok (ActionResult.char c),
            applyEliminate authUserId nextLogId cardId c (resetEliminated s)) := by
        unfold resolveAction
        simp only [htype, hpick, hp2]
      obtain ⟨orig, horig, hmapeq⟩ := List.mem_map.mp hgc2
      have horigc : orig.character = c := by
        have h0 : orig.character = gc2.character := by
          have := congrArg GameCharacter.character hmapeq
          simpa using this
        exact h0.trans hcc2
      refine ⟨c, _, hres, ⟨orig, horig, horigc, ?_⟩,
        applyEliminate_marks authUserId nextLogId cardId c _ gc2 hgc2 hcc2⟩
      intro gu hgu
      have := hun2 gu hgu
      rw [← hmapeq] at this
      simpa [horigc] using this
  · intro hlt hnd
    by_contra hnone
    push_neg at hnone
    have hsub : (s.characters.map fun gc => gc.character).toFinset ⊆
        (s.users.map fun gu => gu.character).toFinset := by
      intro x hx
      rw [List.mem_toFinset, List.mem_map] at hx
      obtain ⟨gc, hgc, hxc⟩ := hx
      obtain ⟨gu, hgu, hguc⟩ := hnone gc hgc
      rw [List.mem_toFinset, List.mem_map]
      exact ⟨gu, hgu, by rw [hguc, hxc]⟩
    have h1 : (s.characters.map fun gc => gc.character).toFinset.card =
        s.characters.length := by
      rw [List.toFinset_card_of_nodup hnd, List.length_map]
    have h2 : (s.users.map fun gu => gu.character).toFinset.card ≤ s.users.length := by
      calc (s.users.map fun gu => gu.character).toFinset.card
          ≤ (s.users.map fun gu => gu.character).length := List.toFinset_card_le _
        _ = s.users.length := List.length_map _ _
    have := Finset.card_le_card hsub
    omega

/-- A game where every character, including the uncontrolled cc, is
currently eliminated: the first ELIMINATE pick finds no candidate and the
reset path must run. -/
def fxAllElim : GameState :=
  { created := true, owner := "alice", gname := "g", stage := .PLAYING,
    users := [⟨"alice", "ca", 0⟩, ⟨"bob", "cb", 1⟩],
    tokens := [⟨"t1", 4⟩],
    tokenLocations := [],
    userTokens := [],
    characters := [⟨"ca", 1, true⟩, ⟨"cb", 5, true⟩, ⟨"cc", 6, true⟩],
    cards := [],
    userCards := [],
    guesses := [],
    log := [{ id := 0, app_user := "alice", action := .ROLL, die1 := some "ca" }] }

/-- The ELIMINATE request of the C8 witness. -/
def fxElimReq : ActionRequest := { type := .ELIMINATE, cardId := some "card1" }

/-- Witness for claim C8 on the all-eliminated fixture. -/
theorem c8_eliminate_total_witness :
    (∃ c s2, resolveAction "alice" fxElimReq fxEnt fxAllElim 1 "card1" none none none =
        (Except.ok (ActionResult.char c), s2) ∧
      (∃ gc ∈ fxAllElim.characters, gc.character = c ∧
        ∀ gu ∈ fxAllElim.users, gu.character ≠ gc.character) ∧
      (∃ gc2 ∈ s2.characters, gc2.character = c ∧ gc2.eliminated = true)) ∧
    (fxAllElim.users.length < fxAllElim.characters.length →
      (fxAllElim.characters.map fun gc => gc.character).Nodup →
      ∃ gc ∈ fxAllElim.characters, ∀ gu ∈ fxAllElim.users,
        gu.character ≠ gc.character) :=
  c8_eliminate_total "alice" fxElimReq fxEnt fxAllElim 1 "card1" none none none
    rfl ⟨⟨"cc", 6, true⟩, by decide, by decide⟩

/-! ## Claim C5: token conservation -/

/-- Remaining stock of a token type (sum of its game_token rows). -/
def stockOf (s : GameState) (t : String) : Int :=
  ((s.tokens.filter fun gt => gt.token == t).map fun gt => gt.count).sum

/-- One player's holding of a token type. -/
def holdingOf (s : GameState) (u t : String) : Int :=
  ((s.userTokens.filter fun ut => ut.app_user == u && ut.token == t).map
    fun ut => ut.count).sum

/-- All players' holdings of a token type. -/
def holdingsOf (s : GameState) (t : String) : Int :=
  ((s.userTokens.filter fun ut => ut.token == t).map fun ut => ut.count).sum

/-- The conserved quantity: global stock plus all holdings of a token type. -/
def tokenTotal (s : GameState) (t : String) : Int :=
  stockOf s t + holdingsOf s t

/-- Decrementing the rows of one token id leaves the rows of a different
token id untouched. -/
theorem filter_map_dec (l : List GameToken) (tid t : String) (hne : t ≠ tid) :
    (l.map fun gt =>
      if gt.token == tid then { gt with count := gt.count - 1 } else gt).filter
        (fun gt => gt.token == t) = l.filter fun gt => gt.token == t := by
  induction l with
  | nil => rfl
  | cons g rest ih =>
    cases h1 : (g.token == tid) with
    | true =>
      have h1e : g.token = tid := by simpa using h1
      have hgt : (g.token == t) = false := by
        rw [beq_eq_false_iff_ne, h1e]
        exact fun he => hne he.symm
      simp only [List.map_cons, List.filter_cons, h1, if_true, hgt, Bool.false_eq_true,
        if_false]
      exact ih
    | false =>
      simp only [List.map_cons, List.filter_cons, h1, Bool.false_eq_true, if_false]
      cases h2 : (g.token == t) with
      | true =>
        simp only [h2, if_true]
        rw [ih]
      | false =>
        simp only [h2, Bool.false_eq_true, if_false]
        exact ih

/-- Decrementing the unique row of a token id lowers that id's stock sum by
exactly one. -/
theorem sum_dec_tid (l : List GameToken) (tid : String)
    (hnd : (l.map fun gt => gt.token).Nodup)
    (hex : ∃ gt ∈ l, gt.token = tid) :
    (((l.map fun gt =>
        if gt.token == tid then { gt with count := gt.count - 1 } else gt).filter
          (fun gt => gt.token == tid)).map fun gt => gt.count).sum =
    (((l.filter fun gt => gt.token == tid).map fun gt => gt.count).sum) - 1 := by
  induction l with
  | nil => simp at hex
  | cons g rest ih =>
    rw [List.map_cons, List.nodup_cons] at hnd
    obtain ⟨hnotin, hndr⟩ := hnd
    cases h1 : (g.token == tid) with
    | true =>
      have h1e : g.token = tid := by simpa using h1
      have hno : ∀ a ∈ rest, ¬((a.token == tid) = true) := by
        intro a ha hc
        exact hnotin (by
          rw [List.mem_map]
          exact ⟨a, ha, by rw [h1e]; simpa using hc⟩)
      have hrest : (rest.filter fun gt => gt.token == tid) = [] :=
        List.filter_eq_nil_iff.mpr hno
      have hrestm : ((rest.map fun gt =>
          if gt.token == tid then { gt with count := gt.count - 1 } else gt).filter
            fun gt => gt.token == tid) = [] := by
        rw [List.filter_eq_nil_iff]
        intro a ha hc
        rw [List.mem_map] at ha
        obtain ⟨b, hb, hba⟩ := ha
        apply hno b hb
        cases hbt : (b.token == tid) with
        | true => rfl
        | false =>
          rw [hbt] at hba
          simp only [Bool.false_eq_true, if_false] at hba
          rw [← hba] at hc
          rw [hbt] at hc
          exact hc
      simp only [List.map_cons, List.filter_cons, h1, if_true, hrest, hrestm]
      simp
    | false =>
      have hex2 : ∃ gt ∈ rest, gt.token = tid := by
        obtain ⟨gt, hgt, he⟩ := hex
        rcases List.mem_cons.mp hgt with hh | ht
        · exfalso
          rw [hh] at he
          rw [he] at h1
          exact absurd h1 (by simp)
        · exact ⟨gt, ht, he⟩
      simp only [List.map_cons, List.filter_cons, h1, Bool.false_eq_true, if_false]
      exact ih hndr hex2

/-- The upsert increment is the identity when no row carries the key. -/
theorem inc_map_id (l : List GameUserToken) (u tid : String)
    (hno : ∀ ut ∈ l, ¬(ut.app_user = u ∧ ut.token = tid)) :
    l.map (fun ut => if ut.app_user == u && ut.token == tid then
      { ut with count := ut.count + 1 } else ut) = l := by
  induction l with
  | nil => rfl
  | cons h rest ih =>
    rw [List.map_cons]
    have hcond : (h.app_user == u && h.token == tid) = false := by
      rw [Bool.eq_false_iff]
      intro hx
      rw [Bool.and_eq_true, beq_iff_eq, beq_iff_eq] at hx
      exact hno h (List.mem_cons_self _ _) hx
    rw [hcond]
    simp only [Bool.false_eq_true, if_false]
    rw [ih fun ut hut => hno ut (List.mem_cons_of_mem _ hut)]

/-- Incrementing the unique row with a key adds one to every
count-insensitive filtered sum that selects the key. -/
theorem inc_sum (l : List GameUserToken) (u tid : String) (p : GameUserToken → Bool)
    (hp : ∀ a t c1 c2, p ⟨a, t, c1⟩ = p ⟨a, t, c2⟩)
    (hnd : (l.map fun ut => (ut.app_user, ut.token)).Nodup)
    (hex : ∃ ut ∈ l, ut.app_user = u ∧ ut.token = tid) :
    (((l.map fun ut => if ut.app_user == u && ut.token == tid then
        { ut with count := ut.count + 1 } else ut).filter p).map
          fun ut => ut.count).sum =
    ((l.filter p).map fun ut => ut.count).sum +
      (if p ⟨u, tid, 1⟩ then 1 else 0) := by
  induction l with
  | nil => simp at hex
  | cons h rest ih =>
    rw [List.map_cons, List.nodup_cons] at hnd
    obtain ⟨hnotin, hndr⟩ := hnd
    cases hkey : (h.app_user == u && h.token == tid) with
    | true =>
      have hku : h.app_user = u ∧ h.token = tid := by
        rw [Bool.and_eq_true, beq_iff_eq, beq_iff_eq] at hkey
        exact hkey
      have hno : ∀ ut ∈ rest, ¬(ut.app_user = u ∧ ut.token = tid) := by
        intro ut hut hx
        apply hnotin
        rw [List.mem_map]
        exact ⟨ut, hut, by rw [hx.1, hx.2, hku.1, hku.2]⟩
      rw [List.map_cons, hkey]
      simp only [if_true]
      rw [inc_map_id rest u tid hno]
      have hph : p { h with count := h.count + 1 } = p ⟨u, tid, 1⟩ := by
        obtain ⟨ha, ht, hc⟩ := h
        simp only at hku
        rw [hku.1, hku.2]
        exact hp u tid (hc + 1) 1
      have hph2 : p h = p ⟨u, tid, 1⟩ := by
        obtain ⟨ha, ht, hc⟩ := h
        simp only at hku
        rw [hku.1, hku.2]
        exact hp u tid hc 1
      rw [List.filter_cons, List.filter_cons, hph, hph2]
      cases hpr : p ⟨u, tid, 1⟩ with
      | true =>
        simp only [if_true, List.map_cons, List.sum_cons]
        omega
      | false =>
        simp only [Bool.false_eq_true, if_false]
        omega
    | false =>
      have hex2 : ∃ ut ∈ rest, ut.app_user = u ∧ ut.token = tid := by
        obtain ⟨ut, hut, hx⟩ := hex
        rcases List.mem_cons.mp hut with hh | htl
        · exfalso
          rw [hh] at hx
          rw [Bool.eq_false_iff] at hkey
          exact hkey (by rw [Bool.and_eq_true, beq_iff_eq, beq_iff_eq]; exact hx)
        · exact ⟨ut, htl, hx⟩
      rw [List.map_cons, hkey]
      simp only [Bool.false_eq_true, if_false]
      rw [List.filter_cons, List.filter_cons]
      cases hph : p h with
      | true =>
        simp only [if_true, List.map_cons, List.sum_cons]
        rw [ih hndr hex2]
        omega
      | false =>
        simp only [Bool.false_eq_true, if_false]
        exact ih hndr hex2

/-- The game_user_token upsert raises every count-insensitive filtered sum
by one exactly when the filter selects the upserted key. -/
theorem upsert_sum (l : List GameUserToken) (u tid : String) (p : GameUserToken → Bool)
    (hp : ∀ a t c1 c2, p ⟨a, t, c1⟩ = p ⟨a, t, c2⟩)
    (hnd : (l.map fun ut => (ut.app_user, ut.token)).Nodup) :
    (((upsertUserToken l u tid).filter p).map fun ut => ut.count).sum =
    ((l.filter p).map fun ut => ut.count).sum +
      (if p ⟨u, tid, 1⟩ then 1 else 0) := by
  unfold upsertUserToken
  cases hany : l.any fun ut => ut.app_user == u && ut.token == tid with
  | true =>
    obtain ⟨ut, hut, hx⟩ := List.any_eq_true.mp hany
    rw [Bool.and_eq_true, beq_iff_eq, beq_iff_eq] at hx
    simp only [if_true]
    exact inc_sum l u tid p hp hnd ⟨ut, hut, hx⟩
  | false =>
    simp only [Bool.false_eq_true, if_false]
    rw [List.filter_append, List.map_append, List.sum_append]
    cases hpr : p ⟨u, tid, 1⟩ with
    | true => simp [List.filter_cons, hpr]
    | false => simp [List.filter_cons, hpr]

/-- pickupToken preserves stock + holdings for every token type, provided
the token keys are unique and the picked token has a stock row. -/
theorem pickupToken_total (u tid : String) (s : GameState)
    (hndT : (s.tokens.map fun gt => gt.token).Nodup)
    (hndU : (s.userTokens.map fun ut => (ut.app_user, ut.token)).Nodup)
    (hex : ∃ gt ∈ s.tokens, gt.token = tid) (t : String) :
    tokenTotal (pickupToken u tid s) t = tokenTotal s t := by
  have hhold := upsert_sum s.userTokens u tid (fun ut => ut.token == t)
    (fun a t1 c1 c2 => rfl) hndU
  unfold tokenTotal stockOf holdingsOf pickupToken
  simp only
  by_cases hteq : t = tid
  · subst hteq
    rw [sum_dec_tid s.tokens t hndT hex, hhold]
    simp
  · rw [filter_map_dec s.tokens tid t hteq, hhold]
    have hrow : ((⟨u, tid, 1⟩ : GameUserToken).token == t) = false := by
      rw [beq_eq_false_iff_ne]
      exact fun he => hteq he.symm
    simp [hrow]

/-- pickupToken raises the acting player's holding of the picked token by
exactly one. -/
theorem pickupToken_holding (u tid : String) (s : GameState)
    (hndU : (s.userTokens.map fun ut => (ut.app_user, ut.token)).Nodup) :
    holdingOf (pickupToken u tid s) u tid = holdingOf s u tid + 1 := by
  have := upsert_sum s.userTokens u tid
    (fun ut => ut.app_user == u && ut.token == tid) (fun a t c1 c2 => rfl) hndU
  unfold holdingOf pickupToken
  simp only
  rw [this]
  simp

/-- pickupToken lowers the picked token's stock by exactly one. -/
theorem pickupToken_stock (u tid : String) (s : GameState)
    (hndT : (s.tokens.map fun gt => gt.token).Nodup)
    (hex : ∃ gt ∈ s.tokens, gt.token = tid) :
    stockOf (pickupToken u tid s) tid = stockOf s tid - 1 := by
  unfold stockOf pickupToken
  simp only
  exact sum_dec_tid s.tokens tid hndT hex

/-- Token sums depend only on the token tables. -/
theorem totals_congr (a b : GameState) (ht : a.tokens = b.tokens)
    (hu : a.userTokens = b.userTokens) :
    (∀ t, tokenTotal a t = tokenTotal b t) ∧
    (∀ u t, holdingOf a u t = holdingOf b u t) ∧
    (∀ t, stockOf a t = stockOf b t) := by
  unfold tokenTotal stockOf holdingsOf holdingOf
  rw [ht, hu]
  exact ⟨fun _ => rfl, fun _ _ => rfl, fun _ => rfl⟩

/-- Turn advancement never touches the token tables. -/
theorem advanceTurn_tokens (authUserId : String) (ent : Entropy) (cardId : String)
    (curOrder nextLogId : Nat) (s : GameState) :
    (advanceTurn authUserId ent cardId curOrder nextLogId s).2.tokens = s.tokens ∧
    (advanceTurn authUserId ent cardId curOrder nextLogId s).2.userTokens =
      s.userTokens := by
  simp only [advanceTurn]
  repeat' split
  all_goals exact ⟨rfl, rfl⟩

/-- The phase 3/4 epilogue never touches the token tables. -/
theorem afterAction_tokens (authUserId : String) (ent : Entropy) (cardId : String)
    (tc curOrder nextLogId : Nat) (s : GameState) :
    (afterAction authUserId ent cardId tc curOrder nextLogId s).2.tokens = s.tokens ∧
    (afterAction authUserId ent cardId tc curOrder nextLogId s).2.userTokens =
      s.userTokens := by
  simp only [afterAction]
  repeat' split
  all_goals first
    | exact ⟨rfl, rfl⟩
    | exact advanceTurn_tokens authUserId ent cardId curOrder nextLogId s

/-- The phase 1/2 branch rejects any non-MOVE action. -/
theorem doPhase12_not_move (authUserId : String) (req : ActionRequest) (s : GameState)
    (lastLog : GameLogEntry) (nextLogId tc : Nat) (loc : Option Nat)
    (hnm : req.type ≠ ActionType.MOVE) :
    doPhase12 authUserId req s lastLog nextLogId tc loc =
      (.error (.response ⟨400, "First two turn actions must be MOVE"⟩), s) := by
  unfold doPhase12
  rw [bne_iff_ne.mpr hnm]
  simp

/-- A successful non-MOVE applyAction runs the phase 3/4 branch. -/
theorem applyAction_ok_inv (authUserId : String) (req : ActionRequest) (ent : Entropy)
    (s : GameState) (r : ActionResult) (s2 : GameState)
    (hnm : req.type ≠ ActionType.MOVE)
    (hrun : applyAction authUserId req ent s = (Except.ok r, s2)) :
    ∃ lastLog curOrder loc tc, (tc = 3 ∨ tc = 4) ∧
      doPhase34 authUserId req ent s lastLog (lastLog.id + 1) tc curOrder loc =
        (Except.ok r, s2) := by
  simp only [applyAction] at hrun
  repeat' split at hrun
  all_goals first
    | exact absurd hrun (by simp)
    | (rw [doPhase12_not_move authUserId req s _ _ _ _ hnm] at hrun
       exact absurd hrun (by simp))
    | exact ⟨_, _, _, 3, Or.inl rfl, hrun⟩
    | exact ⟨_, _, _, 4, Or.inr rfl, hrun⟩

/-- A successful phase 3/4 branch runs the resolver on a card of the game
followed by the epilogue. -/
theorem doPhase34_ok_inv (authUserId : String) (req : ActionRequest) (ent : Entropy)
    (s : GameState) (lastLog : GameLogEntry) (nextLogId tc curOrder : Nat)
    (loc : Option Nat) (r : ActionResult) (s2 : GameState)
    (hrun : doPhase34 authUserId req ent s lastLog nextLogId tc curOrder loc =
      (Except.ok r, s2)) :
    ∃ card s1, card ∈ s.cards ∧
      resolveAction authUserId req ent s nextLogId (req.cardId.getD "")
        (if card.action1 == req.type then card.character1 else card.character2)
        (if card.action1 == req.type then card.token1 else card.token2) loc =
        (Except.ok r, s1) ∧
      afterAction authUserId ent (req.cardId.getD "") tc curOrder nextLogId s1 =
        (none, s2) := by
  simp only [doPhase34, phase34Tail] at hrun
  repeat' split at hrun
  all_goals try (exfalso; simp at hrun; done)
  all_goals
    rename_i hfalsy acc card heqfind hdiff htcx hcov x1 actionResult s1 hres x2 s2b hafter
  all_goals
    (have hmem : card ∈ s.cards := by
      obtain ⟨a, ha1, ha2⟩ := Option.bind_eq_some.mp heqfind
      exact List.mem_of_find?_eq_some ha2
     simp only [Prod.mk.injEq, Except.ok.injEq] at hrun
     obtain ⟨hr, hs⟩ := hrun
     subst hr
     subst hs
     exact ⟨card, s1, hmem, hres, hafter⟩)

/-- A truthy optional string is a non-empty some. -/
theorem strTruthy_some (o : Option String) (h : strTruthy o = true) :
    ∃ x, o = some x ∧ x.isEmpty = false := by
  cases o with
  | none => simp [strTruthy] at h
  | some x => exact ⟨x, rfl, by simpa [strTruthy] using h⟩

/-- A successful PICK_TOKEN resolver call upserts the requested token,
which has a board-location row, after appending its log entry. -/
theorem resolveAction_pick_inv (authUserId : String) (req : ActionRequest)
    (ent : Entropy) (s : GameState) (nextLogId : Nat) (cid : String)
    (cc ct : Option String) (loc : Option Nat) (r : ActionResult) (s1 : GameState)
    (htype : req.type = ActionType.PICK_TOKEN)
    (hrun : resolveAction authUserId req ent s nextLogId cid cc ct loc =
      (Except.ok r, s1)) :
    ∃ tid e, req.tokenId = some tid ∧ (∃ tl ∈ s.tokenLocations, tl.token = tid) ∧
      s1 = pickupToken authUserId tid (appendLog s e) := by
  simp only [resolveAction, htype] at hrun
  repeat' split at hrun
  all_goals try (exfalso; simp at hrun; done)
  rename_i hts hcan
  simp only [Bool.not_eq_true, Bool.not_eq_false] at hts hcan
  have hts2 : strTruthy req.tokenId = true := by simpa using hts
  have hcan2 : canPickAt s authUserId (req.tokenId.getD "") = true := by simpa using hcan
  obtain ⟨tid, htok, hne⟩ := strTruthy_some req.tokenId hts2
  rw [htok] at hcan2 hrun
  simp only [Option.getD_some] at hcan2 hrun
  rw [canPickAt] at hcan2
  obtain ⟨tl, htl, hcond⟩ := List.any_eq_true.mp hcan2
  rw [Bool.and_eq_true, beq_iff_eq] at hcond
  simp only [Prod.mk.injEq, Except.ok.injEq] at hrun
  exact ⟨tid, _, htok, ⟨tl, htl, hcond.1⟩, hrun.2.symm⟩

/-- A successful SPECIFIC_TOKEN resolver call upserts the card-bound token
after appending its log entry. -/
theorem resolveAction_specific_inv (authUserId : String) (req : ActionRequest)
    (ent : Entropy) (s : GameState) (nextLogId : Nat) (cid : String)
    (cc ct : Option String) (loc : Option Nat) (r : ActionResult) (s1 : GameState)
    (htype : req.type = ActionType.SPECIFIC_TOKEN)
    (hrun : resolveAction authUserId req ent s nextLogId cid cc ct loc =
      (Except.ok r, s1)) :
    ∃ tid e, ct = some tid ∧
      s1 = pickupToken authUserId tid (appendLog s e) := by
  simp only [resolveAction, htype] at hrun
  repeat' split at hrun
  all_goals try (exfalso; simp at hrun; done)
  rename_i hts
  simp only [Bool.not_eq_true, Bool.not_eq_false] at hts
  have hts2 : strTruthy ct = true := by simpa using hts
  obtain ⟨tid, htok, hne⟩ := strTruthy_some ct hts2
  rw [htok] at hrun
  simp only [Option.getD_some] at hrun
  simp only [Prod.mk.injEq, Except.ok.injEq] at hrun
  exact ⟨tid, _, htok, hrun.2.symm⟩

/-- Claim C5: a successful PICK_TOKEN or SPECIFIC_TOKEN action preserves,
for every token type, the global stock plus all players' holdings, and it
raises the acting player's holding of the acted token by exactly one while
lowering that token's stock by exactly one.  The hypotheses state the
primary-key uniqueness of game_token and game_user_token and the foreign
keys from game_token_location and the card token slots into game_token, as
the SQL schema enforces. -/
theorem c5_token_conservation (authUserId : String) (req : ActionRequest)
    (ent : Entropy) (s : GameState) (r : ActionResult) (s2 : GameState)
    (hndT : (s.tokens.map fun gt => gt.token).Nodup)
    (hndU : (s.userTokens.map fun ut => (ut.app_user, ut.token)).Nodup)
    (hfkLoc : ∀ tl ∈ s.tokenLocations, ∃ gt ∈ s.tokens, gt.token = tl.token)
    (hfkCard : ∀ c ∈ s.cards,
      (∀ tk, c.token1 = some tk → ∃ gt ∈ s.tokens, gt.token = tk) ∧
      (∀ tk, c.token2 = some tk → ∃ gt ∈ s.tokens, gt.token = tk))
    (htype : req.type = ActionType.PICK_TOKEN ∨ req.type = ActionType.SPECIFIC_TOKEN)
    (hrun : applyAction authUserId req ent s = (Except.ok r, s2)) :
    (∀ t, tokenTotal s2 t = tokenTotal s t) ∧
    (∃ t0, holdingOf s2 authUserId t0 = holdingOf s authUserId t0 + 1 ∧
      stockOf s2 t0 = stockOf s t0 - 1) := by
  have hnm : req.type ≠ ActionType.MOVE := by
    rcases htype with h | h <;> rw [h] <;> decide
  obtain ⟨lastLog, curOrder, loc, tc, _, hdo⟩ :=
    applyAction_ok_inv authUserId req ent s r s2 hnm hrun
  obtain ⟨card, s1, hcardmem, hres, hafter⟩ :=
    doPhase34_ok_inv authUserId req ent s lastLog (lastLog.id + 1) tc curOrder loc
      r s2 hdo
  have hmain : ∃ tid e, (∃ gt ∈ s.tokens, gt.token = tid) ∧
      s1 = pickupToken authUserId tid (appendLog s e) := by
    rcases htype with h | h
    · obtain ⟨tid, e, htok, ⟨tl, htl, htlt⟩, hs1⟩ :=
        resolveAction_pick_inv authUserId req ent s (lastLog.id + 1)
          (req.cardId.getD "") _ _ loc r s1 h hres
      obtain ⟨gt, hgt, hgtt⟩ := hfkLoc tl htl
      exact ⟨tid, e, ⟨gt, hgt, by rw [hgtt, htlt]⟩, hs1⟩
    · obtain ⟨tid, e, hct, hs1⟩ :=
        resolveAction_specific_inv authUserId req ent s (lastLog.id + 1)
          (req.cardId.getD "") _ _ loc r s1 h hres
      have hstock : ∃ gt ∈ s.tokens, gt.token = tid := by
        by_cases hsel : (card.action1 == req.type) = true
        · rw [if_pos hsel] at hct
          exact (hfkCard card hcardmem).1 tid hct
        · rw [if_neg hsel] at hct
          exact (hfkCard card hcardmem).2 tid hct
      exact ⟨tid, e, hstock, hs1⟩
  obtain ⟨tid, e, hex, hs1⟩ := hmain
  subst hs1
  have hs2 : s2 = (afterAction authUserId ent (req.cardId.getD "") tc curOrder
      (lastLog.id + 1) (pickupToken authUserId tid (appendLog s e))).2 := by
    rw [hafter]
  have htok2 := afterAction_tokens authUserId ent (req.cardId.getD "") tc curOrder
    (lastLog.id + 1) (pickupToken authUserId tid (appendLog s e))
  have hcongr := totals_congr s2 (pickupToken authUserId tid (appendLog s e))
    (by rw [hs2]; exact htok2.1) (by rw [hs2]; exact htok2.2)
  refine ⟨?_, tid, ?_, ?_⟩
  · intro t
    rw [hcongr.1 t]
    calc tokenTotal (pickupToken authUserId tid (appendLog s e)) t
        = tokenTotal (appendLog s e) t :=
          pickupToken_total authUserId tid (appendLog s e) hndT hndU hex t
      _ = tokenTotal s t := rfl
  · rw [hcongr.2.1 authUserId tid]
    calc holdingOf (pickupToken authUserId tid (appendLog s e)) authUserId tid
        = holdingOf (appendLog s e) authUserId tid + 1 :=
          pickupToken_holding authUserId tid (appendLog s e) hndU
      _ = holdingOf s authUserId tid + 1 := rfl
  · rw [hcongr.2.2 tid]
    calc stockOf (pickupToken authUserId tid (appendLog s e)) tid
        = stockOf (appendLog s e) tid - 1 :=
          pickupToken_stock authUserId tid (appendLog s e) hndT hex
      _ = stockOf s tid - 1 := rfl

/-- A two player game where alice is at phase 3, holds a PICK_TOKEN/MOVE
card and stands on a board location of token t1. -/
def fxPick : GameState :=
  { created := true, owner := "alice", gname := "g", stage := .PLAYING,
    users := [⟨"alice", "ca", 0⟩, ⟨"bob", "cb", 1⟩],
    tokens := [⟨"t1", 4⟩],
    tokenLocations := [⟨"t1", 1⟩],
    userTokens := [],
    characters := [⟨"ca", 1, false⟩, ⟨"cb", 5, false⟩],
    cards := [{ id := "card1", action1 := .PICK_TOKEN, action2 := .MOVE }],
    userCards := [⟨"card1", "alice"⟩],
    guesses := [],
    log := [{ id := 0, app_user := "alice", action := .ROLL, die1 := some "ca" },
            { id := 1, app_user := "alice", action := .MOVE, character := some "ca",
              move_from := some 0 },
            { id := 2, app_user := "alice", action := .MOVE, character := some "ca",
              move_from := some 1 }] }

/-- The PICK_TOKEN request of the C5 witness. -/
def fxPickReq : ActionRequest :=
  { type := .PICK_TOKEN, cardId := some "card1", tokenId := some "t1" }

/-- Witness for claim C5 on the concrete PICK_TOKEN fixture. -/
theorem c5_token_conservation_witness :
    (∀ t, tokenTotal (applyAction "alice" fxPickReq fxEnt fxPick).2 t =
      tokenTotal fxPick t) ∧
    (∃ t0, holdingOf (applyAction "alice" fxPickReq fxEnt fxPick).2 "alice" t0 =
        holdingOf fxPick "alice" t0 + 1 ∧
      stockOf (applyAction "alice" fxPickReq fxEnt fxPick).2 t0 =
        stockOf fxPick t0 - 1) :=
  c5_token_conservation "alice" fxPickReq fxEnt fxPick ActionResult.unit
    (applyAction "alice" fxPickReq fxEnt fxPick).2
    (by decide) (by decide)
    (by
      intro tl htl
      simp only [fxPick, List.mem_singleton] at htl
      subst htl
      exact ⟨⟨"t1", 4⟩, by decide, rfl⟩)
    (by
      intro c hc
      simp only [fxPick, List.mem_singleton] at hc
      subst hc
      constructor <;> intro tk htk <;> exact absurd htk (by simp))
    (Or.inl rfl) rfl

/-! ## Claim C10: applyAction ignores the stored stage -/

/-- Overwrite the stage field. -/
def setStage (b : GameStage) (s : GameState) : GameState := { s with stage := b }

/-- Forget the stage field by normalizing it. -/
def eraseStage (s : GameState) : GameState := { s with stage := .PLAYING }


/-- Projection of setStage. -/
theorem setStage_created (b : GameStage) (s : GameState) :
    (setStage b s).created = s.created := rfl

/-- Projection of setStage. -/
theorem setStage_owner (b : GameStage) (s : GameState) :
    (setStage b s).owner = s.owner := rfl

/-- Projection of setStage. -/
theorem setStage_gname (b : GameStage) (s : GameState) :
    (setStage b s).gname = s.gname := rfl

/-- Projection of setStage. -/
theorem setStage_users (b : GameStage) (s : GameState) :
    (setStage b s).users = s.users := rfl

/-- Projection of setStage. -/
theorem setStage_tokens (b : GameStage) (s : GameState) :
    (setStage b s).tokens = s.tokens := rfl

/-- Projection of setStage. -/
theorem setStage_tokenLocations (b : GameStage) (s : GameState) :
    (setStage b s).tokenLocations = s.tokenLocations := rfl

/-- Projection of setStage. -/
theorem setStage_userTokens (b : GameStage) (s : GameState) :
    (setStage b s).userTokens = s.userTokens := rfl

/-- Projection of setStage. -/
theorem setStage_characters (b : GameStage) (s : GameState) :
    (setStage b s).characters = s.characters := rfl

/-- Projection of setStage. -/
theorem setStage_cards (b : GameStage) (s : GameState) :
    (setStage b s).cards = s.cards := rfl

/-- Projection of setStage. -/
theorem setStage_userCards (b : GameStage) (s : GameState) :
    (setStage b s).userCards = s.userCards := rfl

/-- Projection of setStage. -/
theorem setStage_guesses (b : GameStage) (s : GameState) :
    (setStage b s).guesses = s.guesses := rfl

/-- Projection of setStage. -/
theorem setStage_log (b : GameStage) (s : GameState) :
    (setStage b s).log = s.log := rfl

/-- Projection of setStage. -/
theorem setStage_stage (b : GameStage) (s : GameState) :
    (setStage b s).stage = b := rfl

/-- getLocation ignores the stage. -/
theorem getLocation_setStage (b : GameStage) (s : GameState) (c : String) :
    getLocation (setStage b s) c = getLocation s c := rfl

/-- canPickAt ignores the stage. -/
theorem canPickAt_setStage (b : GameStage) (s : GameState) (u t : String) :
    canPickAt (setStage b s) u t = canPickAt s u t := rfl

/-- getCharacterIdElim ignores the stage. -/
theorem getCharacterIdElim_setStage (b : GameStage) (s : GameState) (p : Nat) :
    getCharacterIdElim (setStage b s) p = getCharacterIdElim s p := rfl

/-- resetEliminated commutes with setStage. -/
theorem resetEliminated_setStage (b : GameStage) (s : GameState) :
    resetEliminated (setStage b s) = setStage b (resetEliminated s) := rfl

/-- pickupToken commutes with setStage. -/
theorem pickupToken_setStage (b : GameStage) (s : GameState) (u t : String) :
    pickupToken u t (setStage b s) = setStage b (pickupToken u t s) := rfl

/-- applyEliminate commutes with setStage. -/
theorem applyEliminate_setStage (authUserId : String) (nextLogId : Nat)
    (cid c : String) (b : GameStage) (s : GameState) :
    applyEliminate authUserId nextLogId cid c (setStage b s) =
      setStage b (applyEliminate authUserId nextLogId cid c s) := rfl

/-- appendLog commutes with setStage. -/
theorem appendLog_setStage (b : GameStage) (s : GameState) (e : GameLogEntry) :
    appendLog (setStage b s) e = setStage b (appendLog s e) := rfl

/-- eraseStage cancels setStage. -/
theorem eraseStage_setStage (b : GameStage) (s : GameState) :
    eraseStage (setStage b s) = eraseStage s := rfl

/-- The resolver ignores the stored stage and only carries it through. -/
theorem resolveAction_setStage (authUserId : String) (req : ActionRequest)
    (ent : Entropy) (s : GameState) (nextLogId : Nat) (cid : String)
    (cc ct : Option String) (loc : Option Nat) (b : GameStage) :
    resolveAction authUserId req ent (setStage b s) nextLogId cid cc ct loc =
      ((resolveAction authUserId req ent s nextLogId cid cc ct loc).1,
        setStage b (resolveAction authUserId req ent s nextLogId cid cc ct loc).2) := by
  cases hreq : req.type
  case ELIMINATE =>
    simp only [resolveAction, hreq, resetEliminated_setStage, getCharacterIdElim_setStage]
    cases hpick : getCharacterIdElim s ent.elimPick with
    | some c =>
      simp only [hpick, applyEliminate_setStage]
    | none =>
      simp only [hpick]
      cases hpick2 : getCharacterIdElim (resetEliminated s) ent.elimPick with
      | some c =>
        simp only [hpick2, applyEliminate_setStage]
      | none =>
        simp only [hpick2]
  all_goals
    (simp only [resolveAction, hreq, getLocation_setStage, canPickAt_setStage,
      setStage_created, setStage_owner, setStage_gname, setStage_users,
      setStage_tokens, setStage_tokenLocations, setStage_userTokens,
      setStage_characters, setStage_cards, setStage_userCards, setStage_guesses,
      setStage_log, setStage_stage]
     repeat' split
     all_goals rfl)

/-- Turn advancement ignores the stored stage and only carries it through. -/
theorem advanceTurn_setStage (authUserId : String) (ent : Entropy) (cid : String)
    (curOrder nextLogId : Nat) (s : GameState) (b : GameStage) :
    advanceTurn authUserId ent cid curOrder nextLogId (setStage b s) =
      ((advanceTurn authUserId ent cid curOrder nextLogId s).1,
        setStage b (advanceTurn authUserId ent cid curOrder nextLogId s).2) := by
  simp only [advanceTurn, appendLog_setStage, setStage_created, setStage_owner,
    setStage_gname, setStage_users, setStage_tokens, setStage_tokenLocations,
    setStage_userTokens, setStage_characters, setStage_cards, setStage_userCards,
    setStage_guesses, setStage_log, setStage_stage]
  repeat' split
  all_goals rfl

/-- The epilogue produces the same outcome and the same state up to stage on
two states differing only in stage. -/
theorem afterAction_setStage (authUserId : String) (ent : Entropy) (cid : String)
    (tc curOrder nextLogId : Nat) (s : GameState) (b : GameStage) :
    (afterAction authUserId ent cid tc curOrder nextLogId (setStage b s)).1 =
      (afterAction authUserId ent cid tc curOrder nextLogId s).1 ∧
    eraseStage (afterAction authUserId ent cid tc curOrder nextLogId (setStage b s)).2 =
      eraseStage (afterAction authUserId ent cid tc curOrder nextLogId s).2 := by
  simp only [afterAction, setStage_tokens, setStage_users, setStage_guesses,
    advanceTurn_setStage, setStage_created, setStage_owner, setStage_gname,
    setStage_tokenLocations, setStage_userTokens, setStage_characters,
    setStage_cards, setStage_userCards, setStage_log]
  repeat' split
  all_goals exact ⟨rfl, rfl⟩

/-- Phase 1/2 handling ignores the stored stage and only carries it through. -/
theorem doPhase12_setStage (authUserId : String) (req : ActionRequest)
    (s : GameState) (lastLog : GameLogEntry) (nextLogId tc : Nat)
    (characterLocation : Option Nat) (b : GameStage) :
    doPhase12 authUserId req (setStage b s) lastLog nextLogId tc characterLocation =
      ((doPhase12 authUserId req s lastLog nextLogId tc characterLocation).1,
        setStage b (doPhase12 authUserId req s lastLog nextLogId tc characterLocation).2) := by
  simp only [doPhase12, setStage_log, setStage_characters, appendLog_setStage]
  repeat' split
  all_goals rfl

/-- The resolver-plus-epilogue tail produces the same outcome and the same
state up to stage on two states differing only in stage. -/
theorem phase34Tail_setStage (authUserId : String) (req : ActionRequest)
    (ent : Entropy) (s : GameState) (nextLogId tc curOrder : Nat)
    (cardId : String) (cc ct : Option String) (loc : Option Nat) (b : GameStage) :
    (phase34Tail authUserId req ent (setStage b s) nextLogId tc curOrder cardId
        cc ct loc).1 =
      (phase34Tail authUserId req ent s nextLogId tc curOrder cardId cc ct loc).1 ∧
    eraseStage (phase34Tail authUserId req ent (setStage b s) nextLogId tc
        curOrder cardId cc ct loc).2 =
      eraseStage (phase34Tail authUserId req ent s nextLogId tc curOrder cardId
        cc ct loc).2 := by
  have hres := resolveAction_setStage authUserId req ent s nextLogId cardId cc ct loc b
  rcases hr : resolveAction authUserId req ent s nextLogId cardId cc ct loc with ⟨r1, s1⟩
  rw [hr] at hres
  simp only [phase34Tail, hres, hr]
  cases r1 with
  | error e => exact ⟨rfl, rfl⟩
  | ok a =>
    have haft := afterAction_setStage authUserId ent cardId tc curOrder nextLogId s1 b
    rcases ha : afterAction authUserId ent cardId tc curOrder nextLogId s1 with ⟨e2, s2⟩
    rcases ha2 : afterAction authUserId ent cardId tc curOrder nextLogId (setStage b s1) with ⟨e2b, s2b⟩
    rw [ha, ha2] at haft
    obtain ⟨hfst, herase⟩ := haft
    simp only at hfst
    subst hfst
    simp only [ha, ha2]
    cases e2b with
    | some e3 => exact ⟨rfl, herase⟩
    | none => exact ⟨rfl, herase⟩

/-- Phase 3/4 handling produces the same outcome and the same state up to
stage on two states differing only in stage. -/
theorem doPhase34_setStage (authUserId : String) (req : ActionRequest)
    (ent : Entropy) (s : GameState) (lastLog : GameLogEntry)
    (nextLogId tc curOrder : Nat) (characterLocation : Option Nat)
    (b : GameStage) :
    (doPhase34 authUserId req ent (setStage b s) lastLog nextLogId tc curOrder
        characterLocation).1 =
      (doPhase34 authUserId req ent s lastLog nextLogId tc curOrder
        characterLocation).1 ∧
    eraseStage (doPhase34 authUserId req ent (setStage b s) lastLog nextLogId tc
        curOrder characterLocation).2 =
      eraseStage (doPhase34 authUserId req ent s lastLog nextLogId tc curOrder
        characterLocation).2 := by
  simp only [doPhase34, setStage_userCards, setStage_cards]
  repeat' split
  all_goals first
    | exact ⟨rfl, rfl⟩
    | exact phase34Tail_setStage _ _ _ _ _ _ _ _ _ _ _ _

/-- C10: the action handler never reads the stored stage: starting from two
states that differ only in stage, it returns the same response and states
that again differ at most in the stage field. -/
theorem c10_stage_independent (authUserId : String) (req : ActionRequest)
    (ent : Entropy) (s : GameState) (b : GameStage) :
    (applyAction authUserId req ent (setStage b s)).1 =
      (applyAction authUserId req ent s).1 ∧
    eraseStage (applyAction authUserId req ent (setStage b s)).2 =
      eraseStage (applyAction authUserId req ent s).2 := by
  simp only [applyAction, setStage_created, setStage_users, setStage_log,
    getLocation_setStage]
  repeat' split
  all_goals first
    | exact ⟨rfl, rfl⟩
    | (rw [doPhase12_setStage]; exact ⟨rfl, rfl⟩)
    | exact doPhase34_setStage _ _ _ _ _ _ _ _ _ _

/-! ## Claim C9: the initial state of a two-player game -/

/-- Swapping two positions keeps the length. -/
theorem listSwap_length {α : Type} (l : List α) (i j : Nat) :
    (listSwap l i j).length = l.length := by
  unfold listSwap
  repeat' split
  all_goals simp [List.length_set]

/-- A fold whose step keeps the length keeps the length. -/
theorem foldl_length_inv {α : Type} (f : List α → Nat → List α)
    (hf : ∀ acc i, (f acc i).length = acc.length) :
    ∀ (idxs : List Nat) (acc : List α), (idxs.foldl f acc).length = acc.length := by
  intro idxs
  induction idxs with
  | nil => intro acc; rfl
  | cons x xs ih =>
    intro acc
    rw [List.foldl_cons, ih, hf]

/-- Shuffling keeps the length. -/
theorem shuffle_length {α : Type} (seed : Nat → Nat) (l : List α) :
    (shuffle seed l).length = l.length := by
  unfold shuffle
  refine foldl_length_inv _ ?_ (List.range l.length) l
  intro acc i
  dsimp only
  split
  · exact listSwap_length acc i _
  · rfl

/-- The second pair component of a dice roll is the shuffled character
list. -/
theorem rollDice_snd (e : DiceEntropy) (l : List String) :
    (rollDice e l).2 = shuffle e.seed l := rfl

/-- Flat-mapping a two-element constructor doubles the length. -/
theorem length_flatMap_pairs {α β : Type} (l : List α) (f g : α → β) :
    (l.flatMap fun x => [f x, g x]).length = 2 * l.length := by
  induction l with
  | nil => rfl
  | cons x xs ih =>
    simp only [List.flatMap_cons, List.length_append, ih, List.length_cons,
      List.length_nil]
    omega

/-- The deck a new game deals from always holds 28 cards. -/
theorem createDeckCards_length (e : CreateEntropy) :
    (createDeckCards e).length = 28 := by
  simp only [createDeckCards, createCards2, createCs2, createCs1, rollDice_snd,
    List.length_map, List.enum_length, shuffle_length, List.length_append,
    length_flatMap_pairs]
  decide

/-- A successful pop takes the last in-memory card, appends it to the
player's hand and otherwise leaves log and tokens alone. -/
theorem popCard_spec (u : String) (st : DealSt) (h : st.mem ≠ []) :
    (popCard u st).1 = none ∧
    (popCard u st).2.mem = st.mem.dropLast ∧
    (popCard u st).2.s.log = st.s.log ∧
    (popCard u st).2.s.tokens = st.s.tokens ∧
    ∃ c1, (popCard u st).2.s.userCards = st.s.userCards ++ [⟨c1, u⟩] := by
  cases hl : st.mem.getLast? with
  | none => exact absurd (List.getLast?_eq_none_iff.mp hl) h
  | some c =>
    have key : popCard u st = (none, ⟨st.mem.dropLast,
        { st.s with
          cards := st.s.cards.map fun gc =>
            if gc.id == c.id then { gc with deck_order := none } else gc,
          userCards := st.s.userCards ++ [⟨c.id, u⟩] }⟩) := by
      simp only [popCard, hl]
    rw [key]
    exact ⟨rfl, rfl, rfl, rfl, c.id, rfl⟩

/-- Dealing one user appends the game_user row, moves two cards from the
deck to that user's hand and leaves log and tokens alone. -/
theorem dealUser_spec (cs4 : List String) (i : Nat) (u : String) (st : DealSt)
    (h : 2 ≤ st.mem.length) :
    (dealUser cs4 i u st).1 = none ∧
    (dealUser cs4 i u st).2.mem.length + 2 = st.mem.length ∧
    (dealUser cs4 i u st).2.s.log = st.s.log ∧
    (dealUser cs4 i u st).2.s.tokens = st.s.tokens ∧
    ∃ c1 c2, (dealUser cs4 i u st).2.s.userCards =
      st.s.userCards ++ [⟨c1, u⟩, ⟨c2, u⟩] := by
  have hne0 : st.mem ≠ [] := by
    intro hc; rw [hc] at h; exact absurd h (by decide)
  obtain ⟨h1e, h1m, h1l, h1t, c1, h1u⟩ :=
    popCard_spec u ⟨st.mem, { st.s with users := st.s.users ++ [⟨u, (cs4.get? i).getD "", i⟩] }⟩ hne0
  rcases hp : popCard u ⟨st.mem, { st.s with users := st.s.users ++ [⟨u, (cs4.get? i).getD "", i⟩] }⟩ with ⟨e1, st1⟩
  rw [hp] at h1e h1m h1l h1t h1u
  obtain rfl : e1 = none := h1e
  have hm1 : st1.mem = st.mem.dropLast := h1m
  have hl1 : st1.s.log = st.s.log := h1l
  have ht1 : st1.s.tokens = st.s.tokens := h1t
  have hu1 : st1.s.userCards = st.s.userCards ++ [⟨c1, u⟩] := h1u
  have hlen1 : st1.mem.length + 1 = st.mem.length := by
    rw [hm1, List.length_dropLast]; omega
  have hne1 : st1.mem ≠ [] := by
    intro hc; rw [hc] at hlen1; simp at hlen1; omega
  obtain ⟨h2e, h2m, h2l, h2t, c2, h2u⟩ := popCard_spec u st1 hne1
  have hd : dealUser cs4 i u st = popCard u st1 := by
    simp only [dealUser, hp]
  rw [hd]
  refine ⟨h2e, ?_, h2l.trans hl1, h2t.trans ht1, c1, c2, ?_⟩
  · rw [h2m, List.length_dropLast]; omega
  · rw [h2u, hu1]; simp

/-- The dealing loop on exactly two users: succeeds whenever at least four
cards remain, deals two cards to each user in order and leaves log and
tokens alone. -/
theorem dealLoop_two_spec (cs4 : List String) (u1 u2 : String) (st : DealSt)
    (h : 4 ≤ st.mem.length) :
    (dealLoop cs4 0 [u1, u2] st).1 = none ∧
    (dealLoop cs4 0 [u1, u2] st).2.s.log = st.s.log ∧
    (dealLoop cs4 0 [u1, u2] st).2.s.tokens = st.s.tokens ∧
    ∃ c1 c2 c3 c4, (dealLoop cs4 0 [u1, u2] st).2.s.userCards =
      st.s.userCards ++ [⟨c1, u1⟩, ⟨c2, u1⟩, ⟨c3, u2⟩, ⟨c4, u2⟩] := by
  obtain ⟨h1e, h1m, h1l, h1t, c1, c2, h1u⟩ := dealUser_spec cs4 0 u1 st (by omega)
  rcases hd1 : dealUser cs4 0 u1 st with ⟨e1, st1⟩
  rw [hd1] at h1e h1m h1l h1t h1u
  obtain rfl : e1 = none := h1e
  have hm1 : st1.mem.length + 2 = st.mem.length := h1m
  obtain ⟨h2e, h2m, h2l, h2t, c3, c4, h2u⟩ := dealUser_spec cs4 1 u2 st1 (by omega)
  rcases hd2 : dealUser cs4 1 u2 st1 with ⟨e2, st2⟩
  rw [hd2] at h2e h2m h2l h2t h2u
  obtain rfl : e2 = none := h2e
  have hL : dealLoop cs4 0 [u1, u2] st = (none, st2) := by
    simp only [dealLoop, hd1, hd2]
  rw [hL]
  have h2l' : st2.s.log = st1.s.log := h2l
  have h1l' : st1.s.log = st.s.log := h1l
  have h2t' : st2.s.tokens = st1.s.tokens := h2t
  have h1t' : st1.s.tokens = st.s.tokens := h1t
  have h2u' : st2.s.userCards = st1.s.userCards ++ [⟨c3, u2⟩, ⟨c4, u2⟩] := h2u
  have h1u' : st1.s.userCards = st.s.userCards ++ [⟨c1, u1⟩, ⟨c2, u1⟩] := h1u
  refine ⟨rfl, h2l'.trans h1l', h2t'.trans h1t', c1, c2, c3, c4, ?_⟩
  rw [h2u', h1u']; simp

/-- Every card in some player's hand has its deck_order cleared in
game_card. -/
def cardsCleared (st : DealSt) : Prop :=
  ∀ uc ∈ st.s.userCards, ∀ c ∈ st.s.cards, c.id = uc.card → c.deck_order = none

/-- Popping a card into a hand keeps every held card's deck_order
cleared. -/
theorem popCard_cleared (u : String) (st : DealSt) (h : cardsCleared st) :
    cardsCleared (popCard u st).2 := by
  unfold cardsCleared at *
  simp only [popCard]
  split
  · exact h
  · rename_i c hl
    intro uc hmem cd hcd hid
    rcases List.mem_append.mp hmem with hold | hnew
    · rcases List.mem_map.mp hcd with ⟨gc, hgc, heq⟩
      by_cases hb : (gc.id == c.id) = true
      · rw [if_pos hb] at heq; rw [← heq]
      · rw [if_neg hb] at heq; rw [← heq]; rw [← heq] at hid
        exact h uc hold gc hgc hid
    · rw [List.mem_singleton] at hnew
      subst hnew
      rcases List.mem_map.mp hcd with ⟨gc, hgc, heq⟩
      by_cases hb : (gc.id == c.id) = true
      · rw [if_pos hb] at heq; rw [← heq]
      · rw [if_neg hb] at heq
        exfalso
        rw [← heq] at hid
        exact hb (beq_iff_eq.mpr hid)

/-- Dealing one user keeps every held card's deck_order cleared. -/
theorem dealUser_cleared (cs4 : List String) (i : Nat) (u : String)
    (st : DealSt) (h : cardsCleared st) : cardsCleared (dealUser cs4 i u st).2 := by
  simp only [dealUser]
  rcases hp : popCard u ⟨st.mem, { st.s with users := st.s.users ++ [⟨u, (cs4.get? i).getD "", i⟩] }⟩ with ⟨e1, st1⟩
  have h1 : cardsCleared st1 := by
    have h0 := popCard_cleared u
      ⟨st.mem, { st.s with users := st.s.users ++ [⟨u, (cs4.get? i).getD "", i⟩] }⟩
      (show cardsCleared ⟨st.mem, { st.s with users := st.s.users ++ [⟨u, (cs4.get? i).getD "", i⟩] }⟩ from h)
    rw [hp] at h0
    exact h0
  cases e1 with
  | some e => exact h1
  | none => exact popCard_cleared u st1 h1

/-- The whole dealing loop keeps every held card's deck_order cleared. -/
theorem dealLoop_cleared (cs4 : List String) (uids : List String) :
    ∀ (i : Nat) (st : DealSt), cardsCleared st →
      cardsCleared (dealLoop cs4 i uids st).2 := by
  induction uids with
  | nil => intro i st h; exact h
  | cons uid rest ih =>
    intro i st h
    simp only [dealLoop]
    rcases hd : dealUser cs4 i uid st with ⟨e1, st1⟩
    have h1 : cardsCleared st1 := by
      have h0 := dealUser_cleared cs4 i uid st h
      rw [hd] at h0
      exact h0
    cases e1 with
    | some e => exact h1
    | none => exact ih (i + 1) st1 h1

/-- Claim C9: creating a game for two distinct known players succeeds and
yields exactly one log entry (a ROLL with id 0 by the first supplied
player), exactly two held cards per player with every held card's
deck_order cleared, and token stocks 2 + 2 = 4 per type, 12 in total. -/
theorem c9_two_player_init (knownUsers : List String)
    (authUserId gname u1 u2 : String) (e : CreateEntropy)
    (h1 : knownUsers.contains u1 = true) (h2 : knownUsers.contains u2 = true)
    (hne : u1 ≠ u2) (hg : gname.isEmpty = false) :
    (createGame knownUsers authUserId gname [u1, u2] e).1 = none ∧
    ((createGame knownUsers authUserId gname [u1, u2] e).2.log.map fun l =>
      (l.id, l.app_user, l.action)) = [(0, u1, ActionType.ROLL)] ∧
    ((createGame knownUsers authUserId gname [u1, u2] e).2.userCards.filter fun uc =>
      uc.app_user == u1).length = 2 ∧
    ((createGame knownUsers authUserId gname [u1, u2] e).2.userCards.filter fun uc =>
      uc.app_user == u2).length = 2 ∧
    (∀ uc ∈ (createGame knownUsers authUserId gname [u1, u2] e).2.userCards,
      ∀ c ∈ (createGame knownUsers authUserId gname [u1, u2] e).2.cards,
        c.id = uc.card → c.deck_order = none) ∧
    ((createGame knownUsers authUserId gname [u1, u2] e).2.tokens.map fun gt =>
      gt.count) = [4, 4, 4] ∧
    ((createGame knownUsers authUserId gname [u1, u2] e).2.tokens.map fun gt =>
      gt.count).sum = 12 := by
  have hfind : ([u1, u2].find? fun uid => !(knownUsers.contains uid)) = none := by
    refine List.find?_eq_none.mpr ?_
    intro x hx
    simp only [List.mem_cons, List.not_mem_nil, or_false] at hx
    rcases hx with rfl | rfl
    · rw [h1]; decide
    · rw [h2]; decide
  have hpc : (decide ([u1, u2].length < 2) || decide ([u1, u2].length > 6)) = false := rfl
  have hkey1 : (createGame knownUsers authUserId gname [u1, u2] e).1 =
      (dealLoop (createCs4 e) 0 [u1, u2]
        ⟨createDeckCards e, createS4 authUserId gname [u1, u2] e⟩).1 := by
    simp only [createGame, hg, Bool.false_eq_true, if_false, List.isEmpty_cons,
      hfind, hpc]
  have hkey2 : (createGame knownUsers authUserId gname [u1, u2] e).2 =
      (dealLoop (createCs4 e) 0 [u1, u2]
        ⟨createDeckCards e, createS4 authUserId gname [u1, u2] e⟩).2.s := by
    simp only [createGame, hg, Bool.false_eq_true, if_false, List.isEmpty_cons,
      hfind, hpc]
  rw [hkey1, hkey2]
  obtain ⟨hnone, hlog, htok, c1, c2, c3, c4, huc⟩ :=
    dealLoop_two_spec (createCs4 e) u1 u2
      ⟨createDeckCards e, createS4 authUserId gname [u1, u2] e⟩
      (by show 4 ≤ (createDeckCards e).length
          rw [createDeckCards_length]
          decide)
  have hb1 : (u1 == u1) = true := beq_self_eq_true u1
  have hb2 : (u2 == u1) = false := beq_eq_false_iff_ne.mpr (Ne.symm hne)
  have hb3 : (u2 == u2) = true := beq_self_eq_true u2
  have hb4 : (u1 == u2) = false := beq_eq_false_iff_ne.mpr hne
  have hemp : (⟨createDeckCards e, createS4 authUserId gname [u1, u2] e⟩ :
      DealSt).s.userCards = [] := rfl
  refine ⟨hnone, ?_, ?_, ?_, ?_, ?_, ?_⟩
  · rw [hlog]; rfl
  · rw [huc, hemp, List.nil_append]
    simp [List.filter_cons, List.filter_nil, hb1, hb2]
  · rw [huc, hemp, List.nil_append]
    simp [List.filter_cons, List.filter_nil, hb3, hb4]
  · exact dealLoop_cleared (createCs4 e) [u1, u2] 0
      ⟨createDeckCards e, createS4 authUserId gname [u1, u2] e⟩
      (by intro uc hmem cd hcd hid
          exact absurd hmem (List.not_mem_nil uc))
  · rw [htok]; rfl
  · rw [htok]; rfl

/-- Witness for the C9 theorem: a concrete two-player creation. -/
theorem c9_two_player_init_witness :
    (["alice", "bob"].contains "alice" = true) ∧
    (["alice", "bob"].contains "bob" = true) ∧
    ("alice" : String) ≠ "bob" ∧
    ("g" : String).isEmpty = false ∧
    (createGame ["alice", "bob"] "owner" "g" ["alice", "bob"] fxCreateEnt).1 = none :=
  ⟨by decide, by decide, by decide, by decide,
    (c9_two_player_init ["alice", "bob"] "owner" "g" "alice" "bob" fxCreateEnt
      (by decide) (by decide) (by decide) (by decide)).1⟩
